import Mathlib

/-!
Verification of the task-dispatch / retry core of the `agentic_demo` repository.

The definitions below are a shallow embedding of the rich variant of the
system, `src/app/agent_system.py` (the application module; the claims cite it
as the primary source).  Pure Python string operations are modelled at the
character-list level with Python semantics; machine side effects are made
explicit:

* the generation transport (the HTTP call inside `OllamaClient.async_generate`)
  is an explicit function from the attempt number to a `TransportResult`;
* the observer callback of the client is modelled by the list of events the
  client emits (`GenEvent`); when no observer is registered the list is simply
  dropped, so the event list is exactly "what the observer would see";
* `time.sleep` calls are recorded as events carrying the slept duration as a
  rational number (`1.5 ** k` in Python floating point is exactly `(3/2)^k`
  for every exponent that occurs here, so rationals model the float exactly);
* `time.strftime` timestamps are drawn from an abstract clock stream in a
  `World`; the orchestrator draws generation results from the world stream
  `World.gen`, one entry per generate call, which models the guarantee that
  the client always returns a string rather than raising;
* Python object identity of `Task` objects is modelled by the index (`ref`) of
  the task in the orchestrator's creation-ordered task store; the queue and the
  completed list hold such references.  (`list.remove` in the source finds the
  task by dataclass equality; at every modelled removal site the removed task
  has just been given a status no other queue member carries, so removal by
  reference is faithful.)
-/

namespace AgentSys

/-! ### Python string primitives (character-list semantics) -/

/-- Python `str.strip()` with no argument: drop leading and trailing
whitespace characters.  Modelled on the character list of the string. -/
def pyStripData (l : List Char) : List Char :=
  ((l.dropWhile Char.isWhitespace).reverse.dropWhile Char.isWhitespace).reverse

/-- Python `str.strip()` on a `String`. -/
def pyStrip (s : String) : String := ⟨pyStripData s.data⟩

/-- Python `str.startswith(p)`. -/
def pyStartsWith (s p : String) : Bool := p.data.isPrefixOf s.data

/-- Python `len` of a string (number of characters). -/
def pyLen (s : String) : Nat := s.data.length

/-! ### Task ids: `f"task_{n:03d}"` -/

/-- Little-endian decimal digits of `n` as characters; `fuel` bounds the
recursion (any `fuel ≥ n` is exact). -/
def natDigitsAux : Nat → Nat → List Char
  | 0, _ => []
  | fuel + 1, n =>
    if n = 0 then [] else Nat.digitChar (n % 10) :: natDigitsAux fuel (n / 10)

/-- Decimal rendering of a natural number, as Python's `str`/`"{:d}"` does:
most-significant digit first, no leading zeros, `0` rendered as `"0"`. -/
def natDecimalData (n : Nat) : List Char :=
  if n = 0 then ['0'] else (natDigitsAux n n).reverse

/-- Zero padding to a minimal width, as Python's `"{:03d}"` (with `w = 3`)
pads the decimal rendering. -/
def zeroPad (w : Nat) (l : List Char) : List Char :=
  List.replicate (w - l.length) '0' ++ l

/-- The id assigned by `AgentOrchestrator.create_task`:
`f"task_{n:03d}"` where `n` is the 1-based task counter. -/
def formatId (n : Nat) : String :=
  ⟨"task_".data ++ zeroPad 3 (natDecimalData n)⟩

/-! ### Statuses and tasks (`AgentStatus`, `Task`) -/

/-- `AgentStatus` from the source.  The spec names the four task states
Pending / InProgress / Completed / Failed; the code spells them
IDLE / WORKING / COMPLETED / ERROR. -/
inductive AgentStatus
  | idle
  | working
  | completed
  | error
deriving DecidableEq, Repr

/-- The `Task` dataclass of the rich variant.  The `model : Optional[TaskModel]`
field only influences the prompt text and the structured-output flag, neither
of which is observable in this embedding (generation results come from the
world stream), so it is omitted. -/
structure Task where
  id : String
  description : String
  agent_type : String
  status : AgentStatus := .idle
  result : Option String := none
  timestamp : Option String := none
  retry_count : Nat := 0
  max_retries : Nat := 3
deriving DecidableEq, Repr

/-! ### The Generation Client (`OllamaClient.async_generate`) -/

/-- Outcome of one transport attempt (the `session.post` + `response.json()`
block): a successful response text, an `aiohttp.ClientError` /
`asyncio.TimeoutError` (retried), or any other exception (not retried). -/
inductive TransportResult
  | success (text : String)
  | clientError (msg : String)
  | otherError (msg : String)
deriving DecidableEq, Repr

/-- Events emitted to the interaction callback, plus recorded sleeps.
`request`/`response` carry the 1-based attempt number the payload carries. -/
inductive GenEvent
  | request (attempt : Nat)
  | response (attempt : Nat)
  | error
  | sleep (seconds : ℚ)
deriving DecidableEq, Repr

/-- Result of a full `async_generate` call: the returned string and the
emitted events (in order). -/
structure GenOutput where
  result : String
  events : List GenEvent
deriving DecidableEq, Repr

/-- The terminal transport-failure message of `async_generate`:
`f"Error after {self.max_retries} attempts: {str(e)}"`. -/
def clientFailMsg (mr : Nat) (e : String) : String :=
  s!"Error after {mr} attempts: {e}"

/-- The non-retried failure message of `async_generate`:
`f"Unexpected error: {str(e)}"`. -/
def unexpectedMsg (e : String) : String :=
  s!"Unexpected error: {e}"

/-- The retry loop of `OllamaClient.async_generate`, one recursive step per
iteration of `for attempt in range(self.max_retries)`.  `fuel` is the number
of remaining loop iterations (`max_retries - attempt`); `attempt` is the
0-based loop variable.  The guard `attempt < self.max_retries - 1` deciding
retry versus terminal error is `attempt + 1 < mr` over the integers. -/
def asyncGenAux (tr : Nat → TransportResult) (mr : Nat) (bf : ℚ) :
    Nat → Nat → GenOutput
  | _, 0 => ⟨"Failed to generate response after all retries", []⟩
  | attempt, fuel + 1 =>
    let ev := GenEvent.request (attempt + 1)
    match tr attempt with
    | .success t => ⟨t, [ev, GenEvent.response (attempt + 1)]⟩
    | .clientError e =>
      if attempt + 1 < mr then
        let rest := asyncGenAux tr mr bf (attempt + 1) fuel
        ⟨rest.result, ev :: GenEvent.sleep (bf ^ attempt) :: rest.events⟩
      else
        ⟨clientFailMsg mr e, [ev, GenEvent.error]⟩
    | .otherError e => ⟨unexpectedMsg e, [ev, GenEvent.error]⟩

/-- `OllamaClient.async_generate`, with the transport made explicit.
`mr` is `self.max_retries` (default 3), `bf` is `self.backoff_factor`
(default 1.5). -/
def async_generate (tr : Nat → TransportResult) (mr : Nat) (bf : ℚ) :
    GenOutput :=
  asyncGenAux tr mr bf 0 mr

/-- Default `OllamaClient.max_retries`. -/
def client_max_retries : Nat := 3

/-- Default `OllamaClient.backoff_factor` (`1.5`; exactly representable). -/
def backoff_factor : ℚ := 3 / 2

/-- Number of `request` events in a client event list. -/
def countRequests (evs : List GenEvent) : Nat :=
  evs.countP fun e => match e with | .request _ => true | _ => false

/-- Number of `response` events in a client event list. -/
def countResponses (evs : List GenEvent) : Nat :=
  evs.countP fun e => match e with | .response _ => true | _ => false

/-- Number of `error` events in a client event list. -/
def countErrors (evs : List GenEvent) : Nat :=
  evs.countP fun e => match e with | .error => true | _ => false

/-- The slept durations of a client event list, in order. -/
def sleepsOf (evs : List GenEvent) : List ℚ :=
  evs.filterMap fun e => match e with | .sleep q => some q | _ => none

/-! ### The dispatcher (`BaseAgent` / `AgentOrchestrator`) -/

/-- The `ValueError` message for a result carrying a recognized error marker:
`f"LLM returned error: {result}"`. -/
def llmErrMsg (result : String) : String :=
  s!"LLM returned error: {result}"

/-- `BaseAgent._validate_result`: raises (`.error`) on an empty or too-short
result or on a recognized error marker, otherwise returns the stripped
result.  The length check is on the stripped string; the marker checks are on
the raw string. -/
def validate_result (result : String) : Except String String :=
  if result.data = [] ∨ pyLen (pyStrip result) < 10 then
    .error "Result too short or empty"
  else if pyStartsWith result "Error:" ∨ pyStartsWith result "Unexpected error:" then
    .error (llmErrMsg result)
  else
    .ok (pyStrip result)

/-- The dispatcher-level retry-exhaustion message of `BaseAgent.process_task`:
`f"Error processing task after {task.max_retries} attempts: {str(e)}"`. -/
def taskFailMsg (mr : Nat) (e : String) : String :=
  s!"Error processing task after {mr} attempts: {e}"

/-- The routing-error message of `AgentOrchestrator.assign_task`:
`f"Error: Unknown agent type \x7btask.agent_type\x7d"` wrapped in single
quotes. -/
def unknownTypeMsg (atype : String) : String :=
  s!"Error: Unknown agent type '{atype}'"

/-- The mutable per-agent state of `BaseAgent` that the claims observe
(`status` and `tasks_completed`; name/role/model are fixed configuration). -/
structure AgentState where
  status : AgentStatus := .idle
  tasks_completed : Nat := 0
deriving DecidableEq, Repr

/-- The external world: the stream of strings the generation client returns
(one per generate call, globally numbered) and the stream of
`time.strftime` readings.  Making generation a total stream embeds the
client guarantee that `async_generate` returns a string and never raises. -/
structure World where
  gen : Nat → String
  clock : Nat → String

/-- Observable side effects of dispatcher operations: writes to a task's
`status` field, writes to a task's `timestamp` field, and sleeps.
`ref` is the task reference (index in the creation-ordered store). -/
inductive Ev
  | statusW (ref : Nat) (st : AgentStatus)
  | tstampW (ref : Nat) (v : String)
  | sleepD (seconds : ℚ)
deriving DecidableEq, Repr

/-- Result of `BaseAgent.process_task`: updated agent, updated task, returned
string, new global generate-call count, emitted events. -/
structure PTOut where
  agent : AgentState
  task : Task
  result : String
  calls : Nat
  evs : List Ev
deriving Repr

/-- The `while task.retry_count < task.max_retries` loop of
`BaseAgent.process_task`.  One recursive step per iteration; `fuel` is
`task.max_retries - task.retry_count`, kept in sync by the wrapper.  The
only exception the loop body can raise is the `ValueError` of
`_validate_result`; generation itself always returns a string. -/
def ptLoop (w : World) (ref : Nat) : AgentState → Task → Nat → Nat → PTOut
  | a, t, calls, 0 => ⟨a, t, "Task failed after all retries", calls, []⟩
  | a, t, calls, fuel + 1 =>
    if t.retry_count < t.max_retries then
      let raw := w.gen calls
      let calls := calls + 1
      match validate_result raw with
      | .ok r =>
        let ts := w.clock calls
        let t := { t with result := some r, status := .completed,
                          timestamp := some ts }
        let a := { a with status := .completed,
                          tasks_completed := a.tasks_completed + 1 }
        ⟨a, t, r, calls, [Ev.statusW ref .completed, Ev.tstampW ref ts]⟩
      | .error e =>
        let t := { t with retry_count := t.retry_count + 1 }
        if t.max_retries ≤ t.retry_count then
          let msg := taskFailMsg t.max_retries e
          ⟨{ a with status := .error },
           { t with result := some msg, status := .error },
           msg, calls, [Ev.statusW ref .error]⟩
        else
          let rest := ptLoop w ref a t calls fuel
          ⟨rest.agent, rest.task, rest.result, rest.calls,
           Ev.sleepD ((3 / 2 : ℚ) ^ t.retry_count) :: rest.evs⟩
    else ⟨a, t, "Task failed after all retries", calls, []⟩

/-- `BaseAgent.process_task` of the rich variant: set agent and task to
WORKING, then run the retry loop. -/
def process_task (w : World) (ref : Nat) (a : AgentState) (t : Task)
    (calls : Nat) : PTOut :=
  let a := { a with status := .working }
  let t := { t with status := .working }
  let o := ptLoop w ref a t calls (t.max_retries - t.retry_count)
  { o with evs := Ev.statusW ref .working :: o.evs }

/-- The persona registry keys of `AgentOrchestrator.__init__`. -/
def registryKeys : List String := ["sales", "appraisal", "finance", "manager"]

/-- Orchestrator state: the creation-ordered task store (Python object
identity = index), the two reference collections, the agent registry, and the
number of generate calls consumed from the world stream. -/
structure OrchState where
  tasks : List Task
  task_queue : List Nat
  completed_tasks : List Nat
  agents : List (String × AgentState)
  calls : Nat
deriving Repr

/-- The freshly constructed orchestrator. -/
def initState : OrchState :=
  { tasks := [], task_queue := [], completed_tasks := [],
    agents := registryKeys.map fun k => (k, {}), calls := 0 }

/-- Dictionary lookup `self.agents[atype]` (requires the key present). -/
def lookupAgent (ags : List (String × AgentState)) (atype : String) :
    AgentState :=
  match ags.find? (fun p => p.1 = atype) with
  | some p => p.2
  | none => {}

/-- Pointwise update of the agent registry at one key. -/
def updateAgent (ags : List (String × AgentState)) (atype : String)
    (f : AgentState → AgentState) : List (String × AgentState) :=
  ags.map fun p => if p.1 = atype then (p.1, f p.2) else p

/-- `AgentOrchestrator.create_task`: allocate the id from the combined size
of the two collections, build a fresh Task, append it to the queue. -/
def create_task (s : OrchState) (description agent_type : String) :
    OrchState × Task :=
  let n := s.task_queue.length + s.completed_tasks.length + 1
  let t : Task := { id := formatId n, description := description,
                    agent_type := agent_type }
  ({ s with tasks := s.tasks ++ [t],
            task_queue := s.task_queue ++ [s.tasks.length] }, t)

/-- Result of `AgentOrchestrator.assign_task`. -/
structure ATOut where
  state : OrchState
  result : String
  evs : List Ev
deriving Repr

/-- `AgentOrchestrator.assign_task` of the rich variant.  For an unregistered
`agent_type` it marks the task ERROR with a descriptive result and returns
without touching the collections or the client.  Otherwise it sets the agent
WORKING, runs `process_task`, and moves the task from the queue to the
completed list only when the task completed.  (The `except` branch of the
source is unreachable in the model: `process_task` catches every exception
its body can raise.) -/
def assign_task (w : World) (s : OrchState) (ref : Nat) : ATOut :=
  match s.tasks[ref]? with
  | none => ⟨s, "", []⟩
  | some t =>
    if t.agent_type ∈ registryKeys then
      let ags := updateAgent s.agents t.agent_type
        fun a => { a with status := .working }
      let o := process_task w ref (lookupAgent ags t.agent_type) t s.calls
      let s1 : OrchState :=
        { s with tasks := s.tasks.set ref o.task,
                 agents := updateAgent ags t.agent_type fun _ => o.agent,
                 calls := o.calls }
      if o.task.status = .completed then
        ⟨{ s1 with task_queue := s1.task_queue.erase ref,
                   completed_tasks := s1.completed_tasks ++ [ref] },
         o.result, o.evs⟩
      else
        ⟨s1, o.result, o.evs⟩
    else
      let msg := unknownTypeMsg t.agent_type
      let t1 := { t with status := .error, result := some msg }
      ⟨{ s with tasks := s.tasks.set ref t1 }, msg, [Ev.statusW ref .error]⟩

/-- The state after one `process_all_tasks` iteration body on queue head
`ref`: run `assign_task`, then remove the task from the queue when it ended
in ERROR (`assign_task` is pure, so re-evaluating it is harmless). -/
def procAllNext (w : World) (s : OrchState) (ref : Nat) : OrchState :=
  let s1 := (assign_task w s ref).state
  match s1.tasks[ref]? with
  | some t =>
    if t.status = .error then { s1 with task_queue := s1.task_queue.erase ref }
    else s1
  | none => s1

/-- The `while self.task_queue` loop of
`AgentOrchestrator.process_all_tasks` (rich variant).  One recursive step per
iteration.  After `assign_task` on the head, a task that ended in ERROR is
removed from the queue; the inter-task `time.sleep(1.5)` is recorded.  The
boolean reports whether the loop reached its exit condition (empty queue)
within `fuel` iterations — the source loop has no fuel and simply may not
terminate when an iteration fails to shrink the queue. -/
def procAllLoop (w : World) : OrchState → Nat → OrchState × List Ev × Bool
  | s, 0 => (s, [], s.task_queue.isEmpty)
  | s, fuel + 1 =>
    match s.task_queue with
    | [] => (s, [], true)
    | ref :: _ =>
      let o := assign_task w s ref
      let rest := procAllLoop w (procAllNext w s ref) fuel
      (rest.1, o.evs ++ Ev.sleepD (3 / 2) :: rest.2.1, rest.2.2)

/-- The dispatcher operations the claims quantify over. -/
inductive Op
  | create (description agent_type : String)
  | assign (ref : Nat)
  | procAll (fuel : Nat)

/-- One dispatcher operation as a state-and-event transformer. -/
def stepOp (w : World) (s : OrchState) : Op → OrchState × List Ev
  | .create d a => ((create_task s d a).1, [])
  | .assign ref => let o := assign_task w s ref; (o.state, o.evs)
  | .procAll fuel => let r := procAllLoop w s fuel; (r.1, r.2.1)

/-- Run a list of operations from a start state, accumulating events. -/
def runFrom (w : World) (start : OrchState × List Ev) (ops : List Op) :
    OrchState × List Ev :=
  ops.foldl (fun p op =>
    let r := stepOp w p.1 op
    (r.1, p.2 ++ r.2)) start

/-- Run a list of operations on a fresh orchestrator. -/
def run (w : World) (ops : List Op) : OrchState × List Ev :=
  runFrom w (initState, []) ops

/-- `true` for the operations `processAll`-driven use of the dispatcher
performs (task creation and queue processing); `false` for a direct
`assign_task` call. -/
def isSafeOp : Op → Bool
  | Op.assign _ => false
  | _ => true

/-- Traces built only from `createTask` and `processAll`; direct
re-assignment of already-processed tasks is excluded. -/
def SafeOps (ops : List Op) : Prop :=
  ∀ op ∈ ops, isSafeOp op = true

/-- A safe operation whose created task (if any) names a registered persona
type. -/
def isGoodOp : Op → Bool
  | Op.create _ a => decide (a ∈ registryKeys)
  | Op.assign _ => false
  | Op.procAll _ => true

/-- Safe traces whose created tasks all name registered persona types. -/
def GoodOps (ops : List Op) : Prop :=
  ∀ op ∈ ops, isGoodOp op = true

instance (ops : List Op) : Decidable (GoodOps ops) :=
  inferInstanceAs (Decidable (∀ op ∈ ops, isGoodOp op = true))

/-- A world whose every generation result passes `_validate_result` (so no
task ever exhausts its retries). -/
def ValidGen (w : World) : Prop :=
  ∀ k, validate_result (w.gen k) = Except.ok (pyStrip (w.gen k))

/-- The successive values written to the `status` field of task `ref`. -/
def statusWrites (ref : Nat) (evs : List Ev) : List AgentStatus :=
  evs.filterMap fun e => match e with
    | .statusW r st => if r = ref then some st else none
    | _ => none

/-- The successive values written to the `timestamp` field of task `ref`. -/
def tstampWrites (ref : Nat) (evs : List Ev) : List String :=
  evs.filterMap fun e => match e with
    | .tstampW r v => if r = ref then some v else none
    | _ => none

/-- The task status transitions of the spec's state machine
(Pending→InProgress, InProgress→Completed, InProgress→Failed,
Pending→Failed), plus staying put. -/
def allowedStep (a b : AgentStatus) : Prop :=
  a = b ∨
  (a = .idle ∧ b = .working) ∨
  (a = .working ∧ b = .completed) ∨
  (a = .working ∧ b = .error) ∨
  (a = .idle ∧ b = .error)

instance (a b : AgentStatus) : Decidable (allowedStep a b) :=
  inferInstanceAs (Decidable (a = b ∨
    (a = .idle ∧ b = .working) ∨
    (a = .working ∧ b = .completed) ∨
    (a = .working ∧ b = .error) ∨
    (a = .idle ∧ b = .error)))

instance (ops : List Op) : Decidable (SafeOps ops) :=
  inferInstanceAs (Decidable (∀ op ∈ ops, isSafeOp op = true))

/-- A status is terminal (Completed or Failed). -/
def terminalStatus (a : AgentStatus) : Bool :=
  a = AgentStatus.completed ∨ a = AgentStatus.error

/-- The slept durations of a dispatcher event list, in order. -/
def dSleepsOf (evs : List Ev) : List ℚ :=
  evs.filterMap fun e => match e with | .sleepD q => some q | _ => none

/-! ### Concrete data used by witnesses and counterexamples -/

/-- A transport that fails with a retriable error on every attempt. -/
def trBoom : Nat → TransportResult := fun _ => .clientError "boom"

/-- A transport that fails twice, then succeeds. -/
def trFlaky : Nat → TransportResult := fun k =>
  if k < 2 then .clientError "net down" else .success "A sufficiently long canned answer."

/-- A world whose generation client always returns the canned answer of the
spec's end-to-end scenario. -/
def wCanned : World :=
  ⟨fun _ => "A sufficiently long canned answer.", fun n => toString n⟩

/-- A world whose generation client always returns the 3-character string
`"hi"` (which fails validation). -/
def wShort : World := ⟨fun _ => "hi", fun n => toString n⟩

/-- A world whose generation client always returns a long string that starts
with whitespace followed by the recognized error marker. -/
def wSneaky : World := ⟨fun _ => "  Error: 0123456789xyz", fun n => toString n⟩

/-- A fresh sales task as `create_task` would build it. -/
def tSales : Task := { id := formatId 1, description := "x", agent_type := "sales" }

/-- A fresh task with an unregistered persona type as `create_task` would
build it. -/
def tBogus : Task :=
  { id := formatId 1, description := "anything", agent_type := "bogus" }

/-- Create a task with an unregistered persona type, process the queue (the
failed task is dropped from both collections), then create another task. -/
def opsReuse : List Op :=
  [Op.create "a" "bogus", Op.procAll 1, Op.create "b" "bogus"]

/-- Create a task for a registered persona and fail it by direct assignment
(every generation attempt fails validation), then assign it again. -/
def opsReassign : List Op :=
  [Op.create "x" "sales", Op.assign 0, Op.assign 0]

/-- Create a task with an unregistered persona type and process the queue. -/
def opsDrop : List Op :=
  [Op.create "anything" "bogus", Op.procAll 1]

/-- Create a sales task and process the queue. -/
def opsOneSales : List Op :=
  [Op.create "x" "sales", Op.procAll 1]

/-- The state of the sales task after `opsOneSales` under `wCanned`. -/
def tSalesDone : Task :=
  { id := formatId 1, description := "x", agent_type := "sales",
    status := .completed,
    result := some "A sufficiently long canned answer.",
    timestamp := some "1", retry_count := 0, max_retries := 3 }

/-- The three enqueues of the spec's end-to-end scenario. -/
def opsCreate3 : List Op :=
  [Op.create "Find a cheap sedan" "sales",
   Op.create "Explain a 60-month loan" "finance",
   Op.create "anything" "bogus"]

/-- The spec's end-to-end scenario: a sales task, a finance task, a task with
an unregistered persona type, then `process_all_tasks`. -/
def opsScenario : List Op :=
  opsCreate3 ++ [Op.procAll 3]

/-- Three creations that all name registered persona types, then
`process_all_tasks`. -/
def opsGood3 : List Op :=
  [Op.create "Find a cheap sedan" "sales",
   Op.create "Explain a 60-month loan" "finance",
   Op.create "Appraise my trade-in" "appraisal",
   Op.procAll 3]

/-! ### Lemmas about the Generation Client -/

lemma isPrefixOf_append_of_isPrefixOf {p s : List Char} (t : List Char)
    (h : p.isPrefixOf s = true) : p.isPrefixOf (s ++ t) = true := by
  induction p generalizing s with
  | nil => simp [List.isPrefixOf]
  | cons c p ih =>
    cases s with
    | nil => simp [List.isPrefixOf] at h
    | cons d s =>
      simp only [List.isPrefixOf, List.cons_append, Bool.and_eq_true] at h ⊢
      exact ⟨h.1, ih h.2⟩

@[simp] lemma toString_string (s : String) : toString s = s := rfl

/-- The terminal transport-failure message is error-tagged. -/
lemma clientFailMsg_errTagged (mr : Nat) (e : String) :
    pyStartsWith (clientFailMsg mr e) "Error" = true := by
  have h : (clientFailMsg mr e).data =
      "Error after ".data ++ ((toString mr).data ++ (" attempts: ".data ++ e.data)) := by
    simp [clientFailMsg, String.data_append, List.append_assoc]
  rw [pyStartsWith, h]
  exact isPrefixOf_append_of_isPrefixOf _ (by decide)

/-- One-step unfolding of the client retry loop. -/
lemma asyncGenAux_succ (tr : Nat → TransportResult) (mr : Nat) (bf : ℚ)
    (attempt fuel : Nat) :
    asyncGenAux tr mr bf attempt (fuel + 1) =
      match tr attempt with
      | .success t =>
        ⟨t, [GenEvent.request (attempt + 1), GenEvent.response (attempt + 1)]⟩
      | .clientError e =>
        if attempt + 1 < mr then
          let rest := asyncGenAux tr mr bf (attempt + 1) fuel
          ⟨rest.result, GenEvent.request (attempt + 1) ::
            GenEvent.sleep (bf ^ attempt) :: rest.events⟩
        else
          ⟨clientFailMsg mr e, [GenEvent.request (attempt + 1), GenEvent.error]⟩
      | .otherError e =>
        ⟨unexpectedMsg e, [GenEvent.request (attempt + 1), GenEvent.error]⟩ := rfl

/-- Behavior of the client retry loop when the transport fails with a
retriable error on every attempt. -/
lemma asyncGenAux_allFail (tr : Nat → TransportResult) (mr : Nat) (bf : ℚ)
    (e : Nat → String) (htr : ∀ i, tr i = .clientError (e i)) :
    ∀ fuel attempt, attempt + fuel = mr → 1 ≤ fuel →
      (asyncGenAux tr mr bf attempt fuel).result = clientFailMsg mr (e (mr - 1)) ∧
      countRequests (asyncGenAux tr mr bf attempt fuel).events = fuel ∧
      countErrors (asyncGenAux tr mr bf attempt fuel).events = 1 ∧
      countResponses (asyncGenAux tr mr bf attempt fuel).events = 0 := by
  intro fuel
  induction fuel with
  | zero => intro attempt _ h1; omega
  | succ n ih =>
    intro attempt hsum _
    rw [asyncGenAux_succ, htr attempt]
    match n, ih with
    | 0, _ =>
      have ha : attempt = mr - 1 := by omega
      have hlt : ¬ (attempt + 1 < mr) := by omega
      subst ha
      simp [hlt, countRequests, countErrors, countResponses]
    | m + 1, ih =>
      have hlt : attempt + 1 < mr := by omega
      obtain ⟨h1, h2, h3, h4⟩ := ih (attempt + 1) (by omega) (by omega)
      simp only [hlt, if_true]
      refine ⟨h1, ?_, ?_, ?_⟩ <;>
        simp only [countRequests, countErrors, countResponses,
          List.countP_cons] at h2 h3 h4 ⊢ <;>
        simp [h2, h3, h4]

/-- C4: when the transport fails with a retriable error on every attempt,
`async_generate` returns the error-tagged terminal failure string (it never
raises: the embedding is a total function into strings), and the registered
observer sees exactly `max_retries` `request` events, exactly one `error`
event, and no `response` event. -/
theorem claim_C4 (mr : Nat) (bf : ℚ) (tr : Nat → TransportResult)
    (e : Nat → String) (hmr : 1 ≤ mr)
    (htr : ∀ i, tr i = TransportResult.clientError (e i)) :
    (async_generate tr mr bf).result = clientFailMsg mr (e (mr - 1)) ∧
    pyStartsWith (async_generate tr mr bf).result "Error" = true ∧
    countRequests (async_generate tr mr bf).events = mr ∧
    countErrors (async_generate tr mr bf).events = 1 ∧
    countResponses (async_generate tr mr bf).events = 0 := by
  have h := asyncGenAux_allFail tr mr bf e htr mr 0 (by omega) hmr
  rw [async_generate]
  refine ⟨h.1, ?_, h.2.1, h.2.2.1, h.2.2.2⟩
  rw [h.1]
  exact clientFailMsg_errTagged mr (e (mr - 1))

theorem claim_C4_witness :
    1 ≤ client_max_retries ∧
    ((async_generate trBoom client_max_retries backoff_factor).result =
        clientFailMsg client_max_retries "boom" ∧
      pyStartsWith (async_generate trBoom client_max_retries backoff_factor).result
        "Error" = true ∧
      countRequests (async_generate trBoom client_max_retries backoff_factor).events =
        client_max_retries ∧
      countErrors (async_generate trBoom client_max_retries backoff_factor).events = 1 ∧
      countResponses (async_generate trBoom client_max_retries backoff_factor).events
        = 0) :=
  ⟨by decide,
   claim_C4 client_max_retries backoff_factor trBoom (fun _ => "boom")
     (by decide) (fun i => rfl)⟩

/-- C5: with `max_retries = 3` and a transport failing on the first two
attempts and succeeding on the third, `async_generate` returns the success
text, the observer sees exactly 3 `request` events, exactly 1 `response`
event and no `error` event, and the client waits `backoff_factor ^ attempt`
seconds after each of the two failed attempts. -/
theorem claim_C5 (tr : Nat → TransportResult) (t e0 e1 : String)
    (h0 : tr 0 = .clientError e0) (h1 : tr 1 = .clientError e1)
    (h2 : tr 2 = .success t) :
    (async_generate tr client_max_retries backoff_factor).result = t ∧
    countRequests (async_generate tr client_max_retries backoff_factor).events = 3 ∧
    countResponses (async_generate tr client_max_retries backoff_factor).events = 1 ∧
    countErrors (async_generate tr client_max_retries backoff_factor).events = 0 ∧
    sleepsOf (async_generate tr client_max_retries backoff_factor).events =
      [backoff_factor ^ 0, backoff_factor ^ 1] := by
  have s2 : asyncGenAux tr 3 backoff_factor 2 1 =
      ⟨t, [GenEvent.request 3, GenEvent.response 3]⟩ := by
    show asyncGenAux tr 3 backoff_factor 2 (0 + 1) = _
    rw [asyncGenAux_succ, h2]
  have s1 : asyncGenAux tr 3 backoff_factor 1 2 =
      ⟨t, [GenEvent.request 2, GenEvent.sleep (backoff_factor ^ 1),
           GenEvent.request 3, GenEvent.response 3]⟩ := by
    show asyncGenAux tr 3 backoff_factor 1 (1 + 1) = _
    rw [asyncGenAux_succ, h1, show (1 : Nat) + 1 = 2 from rfl, s2]
    rfl
  have s0 : asyncGenAux tr 3 backoff_factor 0 3 =
      ⟨t, [GenEvent.request 1, GenEvent.sleep (backoff_factor ^ 0),
           GenEvent.request 2, GenEvent.sleep (backoff_factor ^ 1),
           GenEvent.request 3, GenEvent.response 3]⟩ := by
    show asyncGenAux tr 3 backoff_factor 0 (2 + 1) = _
    rw [asyncGenAux_succ, h0, show (0 : Nat) + 1 = 1 from rfl, s1]
    rfl
  have key : async_generate tr client_max_retries backoff_factor =
      ⟨t, [GenEvent.request 1, GenEvent.sleep (backoff_factor ^ 0),
           GenEvent.request 2, GenEvent.sleep (backoff_factor ^ 1),
           GenEvent.request 3, GenEvent.response 3]⟩ := by
    rw [async_generate]; exact s0
  rw [key]
  refine ⟨rfl, ?_, ?_, ?_, ?_⟩ <;> rfl

theorem claim_C5_witness :
    trFlaky 0 = TransportResult.clientError "net down" ∧
    trFlaky 1 = TransportResult.clientError "net down" ∧
    trFlaky 2 = TransportResult.success "A sufficiently long canned answer." ∧
    ((async_generate trFlaky client_max_retries backoff_factor).result =
        "A sufficiently long canned answer." ∧
      countRequests (async_generate trFlaky client_max_retries backoff_factor).events
        = 3 ∧
      countResponses (async_generate trFlaky client_max_retries backoff_factor).events
        = 1 ∧
      countErrors (async_generate trFlaky client_max_retries backoff_factor).events
        = 0 ∧
      sleepsOf (async_generate trFlaky client_max_retries backoff_factor).events =
        [backoff_factor ^ 0, backoff_factor ^ 1]) :=
  ⟨rfl, rfl, rfl,
   claim_C5 trFlaky "A sufficiently long canned answer." "net down" "net down"
     rfl rfl rfl⟩

/-! ### Lemmas about the dispatcher retry loop (`BaseAgent.process_task`) -/

/-- One-step unfolding of the dispatcher retry loop. -/
lemma ptLoop_succ (w : World) (ref : Nat) (a : AgentState) (t : Task)
    (calls fuel : Nat) :
    ptLoop w ref a t calls (fuel + 1) =
      if t.retry_count < t.max_retries then
        match validate_result (w.gen calls) with
        | .ok r =>
          ⟨{ a with
              status := .completed,
              tasks_completed := a.tasks_completed + 1 },
           { t with
              result := some r, status := .completed,
              timestamp := some (w.clock (calls + 1)) },
           r, calls + 1,
           [Ev.statusW ref .completed, Ev.tstampW ref (w.clock (calls + 1))]⟩
        | .error e =>
          if t.max_retries ≤ t.retry_count + 1 then
            ⟨{ a with status := .error },
             { t with
                retry_count := t.retry_count + 1,
                result := some (taskFailMsg t.max_retries e), status := .error },
             taskFailMsg t.max_retries e, calls + 1, [Ev.statusW ref .error]⟩
          else
            let rest := ptLoop w ref a { t with retry_count := t.retry_count + 1 }
              (calls + 1) fuel
            ⟨rest.agent, rest.task, rest.result, rest.calls,
             Ev.sleepD ((3 / 2 : ℚ) ^ (t.retry_count + 1)) :: rest.evs⟩
      else ⟨a, t, "Task failed after all retries", calls, []⟩ := rfl

lemma dSleepsOf_nil : dSleepsOf [] = [] := rfl

lemma dSleepsOf_statusW (r : Nat) (st : AgentStatus) (l : List Ev) :
    dSleepsOf (Ev.statusW r st :: l) = dSleepsOf l := rfl

lemma dSleepsOf_tstampW (r : Nat) (v : String) (l : List Ev) :
    dSleepsOf (Ev.tstampW r v :: l) = dSleepsOf l := rfl

lemma dSleepsOf_sleepD (q : ℚ) (l : List Ev) :
    dSleepsOf (Ev.sleepD q :: l) = q :: dSleepsOf l := rfl

lemma dSleepsOf_append (l1 l2 : List Ev) :
    dSleepsOf (l1 ++ l2) = dSleepsOf l1 ++ dSleepsOf l2 := by
  simp [dSleepsOf]

lemma dSleepsOf_map_sleepD (f : Nat → ℚ) (l : List Nat) :
    dSleepsOf (l.map fun j => Ev.sleepD (f j)) = l.map f := by
  induction l with
  | nil => rfl
  | cons x xs ih => rw [List.map_cons, dSleepsOf_sleepD, ih, List.map_cons]

/-- Unfolding of a retry-loop iteration whose generation result fails
validation. -/
lemma ptLoop_invalid_step (w : World) (ref : Nat) (a : AgentState) (t : Task)
    (calls fuel : Nat) (e : String)
    (hv : validate_result (w.gen calls) = .error e)
    (hrc : t.retry_count < t.max_retries) :
    ptLoop w ref a t calls (fuel + 1) =
      if t.max_retries ≤ t.retry_count + 1 then
        ⟨{ a with status := .error },
         { t with
            retry_count := t.retry_count + 1,
            result := some (taskFailMsg t.max_retries e), status := .error },
         taskFailMsg t.max_retries e, calls + 1, [Ev.statusW ref .error]⟩
      else
        ⟨(ptLoop w ref a { t with retry_count := t.retry_count + 1 }
            (calls + 1) fuel).agent,
         (ptLoop w ref a { t with retry_count := t.retry_count + 1 }
            (calls + 1) fuel).task,
         (ptLoop w ref a { t with retry_count := t.retry_count + 1 }
            (calls + 1) fuel).result,
         (ptLoop w ref a { t with retry_count := t.retry_count + 1 }
            (calls + 1) fuel).calls,
         Ev.sleepD ((3 / 2 : ℚ) ^ (t.retry_count + 1)) ::
           (ptLoop w ref a { t with retry_count := t.retry_count + 1 }
             (calls + 1) fuel).evs⟩ := by
  rw [ptLoop_succ, if_pos hrc, hv]

/-- Unfolding of a retry-loop iteration whose generation result passes
validation. -/
lemma ptLoop_valid_step (w : World) (ref : Nat) (a : AgentState) (t : Task)
    (calls fuel : Nat) (r : String)
    (hv : validate_result (w.gen calls) = .ok r)
    (hrc : t.retry_count < t.max_retries) :
    ptLoop w ref a t calls (fuel + 1) =
      ⟨{ a with
          status := .completed, tasks_completed := a.tasks_completed + 1 },
       { t with
          result := some r, status := .completed,
          timestamp := some (w.clock (calls + 1)) },
       r, calls + 1,
       [Ev.statusW ref .completed, Ev.tstampW ref (w.clock (calls + 1))]⟩ := by
  rw [ptLoop_succ, if_pos hrc, hv]

/-- Behavior of the dispatcher retry loop when every generation result fails
validation: the loop consumes exactly `fuel` generation calls, sleeps
`1.5 ^ rc` after each non-final attempt (`rc` the incremented retry counter),
and ends with the task Failed carrying the exhaustion message built from the
last validation error, without touching `tasks_completed`. -/
lemma ptLoop_allInvalid (w : World) (ref : Nat) (em : Nat → String)
    (hw : ∀ k, validate_result (w.gen k) = .error (em k)) :
    ∀ fuel (a : AgentState) (t : Task) calls,
      fuel = t.max_retries - t.retry_count → 0 < fuel →
      ptLoop w ref a t calls fuel =
        ⟨{ a with status := .error },
         { t with
            retry_count := t.max_retries, status := .error,
            result := some (taskFailMsg t.max_retries (em (calls + fuel - 1))) },
         taskFailMsg t.max_retries (em (calls + fuel - 1)),
         calls + fuel,
         (List.range (fuel - 1)).map
             (fun j => Ev.sleepD ((3 / 2 : ℚ) ^ (t.retry_count + 1 + j))) ++
           [Ev.statusW ref .error]⟩ := by
  intro fuel
  induction fuel with
  | zero => intro a t calls _ h0; omega
  | succ n ih =>
    intro a t calls hfuel _
    have hrc : t.retry_count < t.max_retries := by omega
    rw [ptLoop_invalid_step w ref a t calls n (em calls) (hw calls) hrc]
    cases n with
    | zero =>
      have hterm : t.max_retries ≤ t.retry_count + 1 := by omega
      rw [if_pos hterm]
      have hmax : t.retry_count + 1 = t.max_retries := by omega
      simp [hmax]
    | succ m =>
      have hterm : ¬ t.max_retries ≤ t.retry_count + 1 := by omega
      rw [if_neg hterm]
      have hrec := ih a { t with retry_count := t.retry_count + 1 } (calls + 1)
        (by simp; omega) (by omega)
      rw [hrec]
      have harith1 : calls + 1 + (m + 1) - 1 = calls + (m + 1 + 1) - 1 := by
        omega
      have harith2 : calls + 1 + (m + 1) = calls + (m + 1 + 1) := by omega
      have hrange : (List.range (m + 1)).map
            (fun j => Ev.sleepD ((3 / 2 : ℚ) ^ (t.retry_count + 1 + j))) =
          Ev.sleepD ((3 / 2 : ℚ) ^ (t.retry_count + 1)) ::
            (List.range m).map
              (fun j => Ev.sleepD ((3 / 2 : ℚ) ^ (t.retry_count + 1 + 1 + j))) := by
        simp only [List.range_succ_eq_map, List.map_cons,
          List.map_map, List.cons.injEq]
        refine ⟨by norm_num, ?_⟩
        apply List.map_congr_left
        intro j _
        have hexp : t.retry_count + 1 + (j + 1) = t.retry_count + 1 + 1 + j := by
          omega
        simp [Function.comp, Nat.succ_eq_add_one, hexp]
      simp [harith1, harith2, hrange]

/-- C6: a task whose every generation attempt fails validation (too short
after stripping — such as `"hi"` — or carrying a recognized error marker) is
retried `max_retries` times by `process_task`, with a sleep of
`1.5 ^ retry_count` seconds between consecutive attempts; after exhaustion
the task is Failed with the descriptive exhaustion message and the persona's
completed-count is unchanged. -/
theorem claim_C6 (w : World) (ref : Nat) (a : AgentState) (t : Task)
    (calls : Nat) (em : Nat → String)
    (hw : ∀ k, validate_result (w.gen k) = .error (em k))
    (hrc : t.retry_count = 0) (hmx : 0 < t.max_retries) :
    (process_task w ref a t calls).task.status = .error ∧
    (process_task w ref a t calls).task.result =
      some (taskFailMsg t.max_retries (em (calls + t.max_retries - 1))) ∧
    (process_task w ref a t calls).task.retry_count = t.max_retries ∧
    (process_task w ref a t calls).agent.tasks_completed = a.tasks_completed ∧
    (process_task w ref a t calls).calls = calls + t.max_retries ∧
    dSleepsOf (process_task w ref a t calls).evs =
      (List.range (t.max_retries - 1)).map (fun j => (3 / 2 : ℚ) ^ (j + 1)) := by
  have key := ptLoop_allInvalid w ref em hw
    ({ t with status := .working }.max_retries -
      { t with status := .working }.retry_count)
    { a with status := .working } { t with status := .working } calls
    rfl (by simp [hrc]; omega)
  rw [process_task]
  simp only [key]
  simp [hrc, dSleepsOf_statusW, dSleepsOf_append, dSleepsOf_map_sleepD,
    dSleepsOf_nil]
  intro j _
  rw [Nat.add_comm]

theorem claim_C6_witness :
    (∀ k, validate_result (wShort.gen k) = .error "Result too short or empty") ∧
    tSales.retry_count = 0 ∧
    0 < tSales.max_retries ∧
    ((process_task wShort 0 {} tSales 0).task.status = .error ∧
      (process_task wShort 0 {} tSales 0).task.result =
        some (taskFailMsg 3 "Result too short or empty") ∧
      (process_task wShort 0 {} tSales 0).task.retry_count = 3 ∧
      (process_task wShort 0 {} tSales 0).agent.tasks_completed = 0 ∧
      (process_task wShort 0 {} tSales 0).calls = 0 + 3 ∧
      dSleepsOf (process_task wShort 0 {} tSales 0).evs =
        (List.range 2).map (fun j => (3 / 2 : ℚ) ^ (j + 1))) :=
  ⟨fun k => rfl, rfl, by decide,
   claim_C6 wShort 0 {} tSales 0 (fun _ => "Result too short or empty")
     (fun k => rfl) rfl (by decide)⟩

/-! ### C2: routing error in `assign_task` -/

/-- C2: assigning a task whose persona type is not a registry key marks the
task Failed with the descriptive routing-error message and returns that
message, with zero generate calls, no change to the queue, the completed
list, or the agents, and no InProgress transition (the only status write is
the Failed one). -/
theorem claim_C2 (w : World) (s : OrchState) (ref : Nat) (t : Task)
    (ht : s.tasks[ref]? = some t) (hu : t.agent_type ∉ registryKeys) :
    (assign_task w s ref).result = unknownTypeMsg t.agent_type ∧
    (assign_task w s ref).state.tasks =
      s.tasks.set ref { t with
                          status := .error,
                          result := some (unknownTypeMsg t.agent_type) } ∧
    (assign_task w s ref).state.task_queue = s.task_queue ∧
    (assign_task w s ref).state.completed_tasks = s.completed_tasks ∧
    (assign_task w s ref).state.calls = s.calls ∧
    (assign_task w s ref).state.agents = s.agents ∧
    (assign_task w s ref).evs = [Ev.statusW ref .error] := by
  rw [assign_task, ht]
  simp [hu]

theorem claim_C2_witness :
    ((create_task initState "anything" "bogus").1.tasks[0]? = some tBogus) ∧
    ("bogus" : String) ∉ registryKeys ∧
    ((assign_task wCanned (create_task initState "anything" "bogus").1 0).result =
        unknownTypeMsg "bogus" ∧
      (assign_task wCanned (create_task initState "anything" "bogus").1 0).state.tasks
        = (create_task initState "anything" "bogus").1.tasks.set 0
            { tBogus with
              status := .error, result := some (unknownTypeMsg "bogus") } ∧
      (assign_task wCanned (create_task initState "anything" "bogus").1 0).state.task_queue
        = (create_task initState "anything" "bogus").1.task_queue ∧
      (assign_task wCanned (create_task initState "anything" "bogus").1 0).state.completed_tasks
        = (create_task initState "anything" "bogus").1.completed_tasks ∧
      (assign_task wCanned (create_task initState "anything" "bogus").1 0).state.calls
        = (create_task initState "anything" "bogus").1.calls ∧
      (assign_task wCanned (create_task initState "anything" "bogus").1 0).state.agents
        = (create_task initState "anything" "bogus").1.agents ∧
      (assign_task wCanned (create_task initState "anything" "bogus").1 0).evs =
        [Ev.statusW 0 .error]) :=
  ⟨rfl, by decide,
   claim_C2 wCanned (create_task initState "anything" "bogus").1 0 tBogus
     rfl (by decide)⟩

/-! ### Validation inversion and the Completed-result invariant (C10) -/

lemma ptLoop_zero (w : World) (ref : Nat) (a : AgentState) (t : Task)
    (calls : Nat) :
    ptLoop w ref a t calls 0 =
      ⟨a, t, "Task failed after all retries", calls, []⟩ := rfl

lemma procAllLoop_zero (w : World) (s : OrchState) :
    procAllLoop w s 0 = (s, [], s.task_queue.isEmpty) := rfl

lemma procAllLoop_nil (w : World) (s : OrchState) (fuel : Nat)
    (h : s.task_queue = []) : procAllLoop w s (fuel + 1) = (s, [], true) := by
  rw [procAllLoop, h]

lemma procAllLoop_cons (w : World) (s : OrchState) (fuel ref : Nat)
    (rest : List Nat) (h : s.task_queue = ref :: rest) :
    procAllLoop w s (fuel + 1) =
      ((procAllLoop w (procAllNext w s ref) fuel).1,
       (assign_task w s ref).evs ++
         Ev.sleepD (3 / 2) :: (procAllLoop w (procAllNext w s ref) fuel).2.1,
       (procAllLoop w (procAllNext w s ref) fuel).2.2) := by
  rw [procAllLoop, h]

/-- `procAllNext` only adjusts the queue; the task store is the one
`assign_task` produced. -/
lemma procAllNext_tasks (w : World) (s : OrchState) (ref : Nat) :
    (procAllNext w s ref).tasks = (assign_task w s ref).state.tasks := by
  rcases hg : (assign_task w s ref).state.tasks[ref]? with _ | t
  · simp [procAllNext, hg]
  · by_cases he : t.status = .error <;> simp [procAllNext, hg, he]

/-- Inversion of `_validate_result`: a successful validation returns exactly
the stripped input, the stripped input has at least 10 characters, and the
raw input carries neither recognized error marker. -/
lemma validate_result_ok (raw r : String)
    (h : validate_result raw = .ok r) :
    r = pyStrip raw ∧ 10 ≤ pyLen (pyStrip raw) ∧
    pyStartsWith raw "Error:" = false ∧
    pyStartsWith raw "Unexpected error:" = false := by
  rw [validate_result] at h
  by_cases h1 : raw.data = [] ∨ pyLen (pyStrip raw) < 10
  · rw [if_pos h1] at h; cases h
  · rw [if_neg h1] at h
    by_cases h2 : pyStartsWith raw "Error:" ∨ pyStartsWith raw "Unexpected error:"
    · rw [if_pos h2] at h; cases h
    · rw [if_neg h2] at h
      cases h
      push_neg at h1 h2
      refine ⟨rfl, by omega, ?_, ?_⟩
      · simpa using h2.1
      · simpa using h2.2

/-- The result stored by a completing run of the dispatcher retry loop is the
`.ok` value of a validation of some generated string. -/
lemma ptLoop_completed_result (w : World) (ref : Nat) :
    ∀ fuel (a : AgentState) (t : Task) (calls : Nat),
      t.status = .working →
      (ptLoop w ref a t calls fuel).task.status = .completed →
      ∃ k r, validate_result (w.gen k) = .ok r ∧
        (ptLoop w ref a t calls fuel).task.result = some r := by
  intro fuel
  induction fuel with
  | zero =>
    intro a t calls hst hc
    rw [ptLoop_zero] at hc
    simp [hst] at hc
  | succ n ih =>
    intro a t calls hst hc
    by_cases hrc : t.retry_count < t.max_retries
    · rcases hv : validate_result (w.gen calls) with e | r
      · rw [ptLoop_invalid_step w ref a t calls n e hv hrc] at hc ⊢
        by_cases hterm : t.max_retries ≤ t.retry_count + 1
        · rw [if_pos hterm] at hc
          simp at hc
        · rw [if_neg hterm] at hc ⊢
          exact ih a { t with retry_count := t.retry_count + 1 } (calls + 1)
            hst hc
      · rw [ptLoop_valid_step w ref a t calls n r hv hrc]
        exact ⟨calls, r, hv, rfl⟩
    · rw [ptLoop_succ, if_neg hrc] at hc
      simp [hst] at hc

/-- `process_task` version of `ptLoop_completed_result`. -/
lemma process_task_completed_result (w : World) (ref : Nat) (a : AgentState)
    (t : Task) (calls : Nat)
    (hc : (process_task w ref a t calls).task.status = .completed) :
    ∃ k r, validate_result (w.gen k) = .ok r ∧
      (process_task w ref a t calls).task.result = some r := by
  rw [process_task] at hc ⊢
  exact ptLoop_completed_result w ref _ _ { t with status := .working } calls
    rfl hc

/-- The Completed-result invariant: in a given state, every Completed task
stores the `.ok` value of a validation of some generated string. -/
def CompletedOk (w : World) (s : OrchState) : Prop :=
  ∀ (r : Nat) (t : Task), s.tasks[r]? = some t → t.status = .completed →
    ∃ k v, validate_result (w.gen k) = .ok v ∧ t.result = some v

/-- The task store after `assign_task` is the old store, or the old store
with one slot overwritten by a task that, when Completed, stores a validated
result. -/
lemma assign_task_tasks (w : World) (s : OrchState) (ref : Nat) :
    (assign_task w s ref).state.tasks = s.tasks ∨
    ∃ t', (assign_task w s ref).state.tasks = s.tasks.set ref t' ∧
      (t'.status = .completed →
        ∃ k v, validate_result (w.gen k) = .ok v ∧ t'.result = some v) := by
  rcases hg : s.tasks[ref]? with _ | t0
  · left; simp [assign_task, hg]
  · right
    by_cases hk : t0.agent_type ∈ registryKeys
    · by_cases hcs : (process_task w ref
          (lookupAgent (updateAgent s.agents t0.agent_type
            fun a => { a with status := .working }) t0.agent_type) t0
          s.calls).task.status = .completed
      · refine ⟨(process_task w ref
            (lookupAgent (updateAgent s.agents t0.agent_type
              fun a => { a with status := .working }) t0.agent_type) t0
            s.calls).task, by simp [assign_task, hg, hk, hcs], fun _ => ?_⟩
        exact process_task_completed_result w ref _ t0 s.calls hcs
      · exact ⟨(process_task w ref
            (lookupAgent (updateAgent s.agents t0.agent_type
              fun a => { a with status := .working }) t0.agent_type) t0
            s.calls).task, by simp [assign_task, hg, hk, hcs],
          fun hcon => absurd hcon hcs⟩
    · refine ⟨{ t0 with
                 status := .error,
                 result := some (unknownTypeMsg t0.agent_type) },
        by simp [assign_task, hg, hk], fun hcon => by simp at hcon⟩

lemma completedOk_assign (w : World) (s : OrchState) (ref : Nat)
    (h : CompletedOk w s) : CompletedOk w (assign_task w s ref).state := by
  rcases assign_task_tasks w s ref with h1 | ⟨t', h1, h2⟩
  · intro r t hrt hc
    rw [h1] at hrt
    exact h r t hrt hc
  · intro r t hrt hc
    rw [h1, List.getElem?_set] at hrt
    by_cases hre : ref = r
    · rw [if_pos hre] at hrt
      by_cases hlt : ref < s.tasks.length
      · rw [if_pos hlt] at hrt
        cases hrt
        exact h2 hc
      · rw [if_neg hlt] at hrt
        cases hrt
    · rw [if_neg hre] at hrt
      exact h r t hrt hc

lemma completedOk_procAllNext (w : World) (s : OrchState) (ref : Nat)
    (h : CompletedOk w s) : CompletedOk w (procAllNext w s ref) := by
  intro r t hrt hc
  rw [procAllNext_tasks] at hrt
  exact completedOk_assign w s ref h r t hrt hc

lemma completedOk_procAll (w : World) :
    ∀ fuel (s : OrchState), CompletedOk w s →
      CompletedOk w (procAllLoop w s fuel).1 := by
  intro fuel
  induction fuel with
  | zero => intro s h; exact h
  | succ n ih =>
    intro s h
    rcases hq : s.task_queue with _ | ⟨ref, rest⟩
    · rw [procAllLoop_nil w s n hq]; exact h
    · rw [procAllLoop_cons w s n ref rest hq]
      exact ih _ (completedOk_procAllNext w s ref h)

lemma completedOk_step (w : World) (s : OrchState) (op : Op)
    (h : CompletedOk w s) : CompletedOk w (stepOp w s op).1 := by
  cases op with
  | create d a =>
    intro r t hrt hc
    simp only [stepOp, create_task] at hrt
    rw [List.getElem?_append] at hrt
    by_cases hr : r < s.tasks.length
    · rw [if_pos hr] at hrt
      exact h r t hrt hc
    · rw [if_neg hr] at hrt
      by_cases hr0 : r - s.tasks.length = 0
      · rw [hr0] at hrt
        simp at hrt
        rw [← hrt] at hc
        simp at hc
      · rw [List.getElem?_eq_none (by simp; omega)] at hrt
        cases hrt
  | assign ref => exact completedOk_assign w s ref h
  | procAll fuel => exact completedOk_procAll w fuel s h

lemma completedOk_run (w : World) (ops : List Op) :
    CompletedOk w (run w ops).1 := by
  suffices hgen : ∀ start : OrchState × List Ev, CompletedOk w start.1 →
      CompletedOk w (runFrom w start ops).1 by
    refine hgen (initState, []) ?_
    intro r t hrt
    simp [initState] at hrt
  induction ops with
  | nil => intro start h; exact h
  | cons op rest ih =>
    intro start h
    rw [runFrom, List.foldl_cons]
    exact ih ((stepOp w start.1 op).1, start.2 ++ (stepOp w start.1 op).2)
      (completedOk_step w start.1 op h)

/-- C10 (amended): in every reachable state of the dispatcher, a Completed
task stores exactly the generated text stripped of surrounding whitespace;
that stored result is at least 10 characters long after stripping, and the
*raw* generated text carried neither recognized error marker.  (The original
claim asserted the marker condition of the stored stripped result; a raw
text with leading whitespace before the marker defeats that, see the
counterexample.) -/
theorem claim_C10 (w : World) (ops : List Op) (r : Nat) (t : Task)
    (ht : (run w ops).1.tasks[r]? = some t) (hc : t.status = .completed) :
    ∃ raw, (∃ k, raw = w.gen k) ∧ t.result = some (pyStrip raw) ∧
      10 ≤ pyLen (pyStrip raw) ∧
      pyStartsWith raw "Error:" = false ∧
      pyStartsWith raw "Unexpected error:" = false := by
  obtain ⟨k, v, hval, hres⟩ := completedOk_run w ops r t ht hc
  obtain ⟨hv1, hv2, hv3, hv4⟩ := validate_result_ok (w.gen k) v hval
  subst hv1
  exact ⟨w.gen k, ⟨k, rfl⟩, hres, hv2, hv3, hv4⟩

theorem claim_C10_witness :
    ((run wCanned opsOneSales).1.tasks[0]? = some tSalesDone) ∧
    (tSalesDone.status = AgentStatus.completed) ∧
    (∃ raw, (∃ k, raw = wCanned.gen k) ∧
      tSalesDone.result = some (pyStrip raw) ∧
      10 ≤ pyLen (pyStrip raw) ∧
      pyStartsWith raw "Error:" = false ∧
      pyStartsWith raw "Unexpected error:" = false) :=
  ⟨by decide, by decide,
   claim_C10 wCanned opsOneSales 0 tSalesDone (by decide) (by decide)⟩

/-! ### The end-to-end scenario (C1) -/

lemma run_append (w : World) (l1 l2 : List Op) :
    run w (l1 ++ l2) = runFrom w (run w l1) l2 := by
  simp only [run, runFrom, List.foldl_append]

lemma runFrom_single (w : World) (start : OrchState × List Ev) (op : Op) :
    runFrom w start [op] =
      ((stepOp w start.1 op).1, start.2 ++ (stepOp w start.1 op).2) := rfl

/-- `assign_task` on a task with an unregistered persona type. -/
lemma assign_task_unknown (w : World) (s : OrchState) (ref : Nat) (t : Task)
    (ht : s.tasks[ref]? = some t) (hu : t.agent_type ∉ registryKeys) :
    assign_task w s ref =
      ⟨{ s with tasks := s.tasks.set ref { t with
           status := .error, result := some (unknownTypeMsg t.agent_type) } },
       unknownTypeMsg t.agent_type, [Ev.statusW ref .error]⟩ := by
  simp [assign_task, ht, hu]

/-- First-attempt success of the dispatcher retry loop on a fresh task. -/
lemma ptLoop_fresh_valid (w : World) (ref : Nat) (a : AgentState) (t : Task)
    (calls fuel : Nat) (r : String)
    (hv : validate_result (w.gen calls) = .ok r)
    (hrc : t.retry_count = 0) (hmx : 0 < t.max_retries) (hf : 0 < fuel) :
    ptLoop w ref a t calls fuel =
      ⟨{ a with
          status := .completed, tasks_completed := a.tasks_completed + 1 },
       { t with
          result := some r, status := .completed,
          timestamp := some (w.clock (calls + 1)) },
       r, calls + 1,
       [Ev.statusW ref .completed, Ev.tstampW ref (w.clock (calls + 1))]⟩ := by
  cases fuel with
  | zero => omega
  | succ n => exact ptLoop_valid_step w ref a t calls n r hv (by omega)

/-- `assign_task` on a fresh task of a registered persona whose first
generation result passes validation: the task completes and moves from the
queue to the completed list, and the persona's completed-count rises by 1. -/
lemma assign_task_valid (w : World) (s : OrchState) (ref : Nat) (t : Task)
    (ht : s.tasks[ref]? = some t) (hk : t.agent_type ∈ registryKeys)
    (hrc : t.retry_count = 0) (hmx : 0 < t.max_retries)
    (hv : validate_result (w.gen s.calls) = .ok (pyStrip (w.gen s.calls))) :
    assign_task w s ref =
      ⟨{ s with
          tasks := s.tasks.set ref { t with
            result := some (pyStrip (w.gen s.calls)), status := .completed,
            timestamp := some (w.clock (s.calls + 1)) },
          task_queue := s.task_queue.erase ref,
          completed_tasks := s.completed_tasks ++ [ref],
          agents := updateAgent (updateAgent s.agents t.agent_type
              fun a => { a with status := .working }) t.agent_type
            (fun _ =>
              { status := .completed,
                tasks_completed :=
                  (lookupAgent (updateAgent s.agents t.agent_type
                    fun a => { a with status := .working })
                      t.agent_type).tasks_completed + 1 }),
          calls := s.calls + 1 },
       pyStrip (w.gen s.calls),
       [Ev.statusW ref .working, Ev.statusW ref .completed,
        Ev.tstampW ref (w.clock (s.calls + 1))]⟩ := by
  have key : process_task w ref
      (lookupAgent (updateAgent s.agents t.agent_type
        fun a => { a with status := .working }) t.agent_type) t s.calls =
      ⟨{ status := .completed,
         tasks_completed :=
           (lookupAgent (updateAgent s.agents t.agent_type
             fun a => { a with status := .working })
               t.agent_type).tasks_completed + 1 },
       { t with
          result := some (pyStrip (w.gen s.calls)), status := .completed,
          timestamp := some (w.clock (s.calls + 1)) },
       pyStrip (w.gen s.calls), s.calls + 1,
       [Ev.statusW ref .working, Ev.statusW ref .completed,
        Ev.tstampW ref (w.clock (s.calls + 1))]⟩ := by
    rw [process_task]
    rw [ptLoop_fresh_valid w ref _ _ s.calls _ (pyStrip (w.gen s.calls)) hv
      (by simp [hrc]) (by simp; omega) (by simp [hrc]; omega)]
  simp [assign_task, ht, hk, key]

/-- C1: the end-to-end scenario.  Enqueue a sales task, a finance task and a
task with an unregistered persona type; run `process_all_tasks` against a
generation client whose every result passes validation.  The sales and
finance tasks end Completed with their personas' completed-counts at 1, the
unknown-persona task ends Failed, the completed list has length 2, the
pending queue is empty, and the loop reaches its exit condition within 3
iterations (it terminates; the embedding is a total function, so nothing is
thrown). -/
theorem claim_C1 (w : World)
    (hval : ∀ k, validate_result (w.gen k) = .ok (pyStrip (w.gen k))) :
    (run w opsScenario).1.tasks.map Task.status =
      [AgentStatus.completed, AgentStatus.completed, AgentStatus.error] ∧
    (lookupAgent (run w opsScenario).1.agents "sales").tasks_completed = 1 ∧
    (lookupAgent (run w opsScenario).1.agents "finance").tasks_completed = 1 ∧
    (run w opsScenario).1.completed_tasks.length = 2 ∧
    (run w opsScenario).1.task_queue = [] ∧
    (procAllLoop w (run w opsCreate3).1 3).2.2 = true ∧
    (run w opsScenario).1.tasks.map Task.result =
      [some (pyStrip (w.gen 0)), some (pyStrip (w.gen 1)),
       some (unknownTypeMsg "bogus")] := by
  have hrun : (run w opsScenario).1 =
      (procAllLoop w (run w opsCreate3).1 3).1 := by
    rw [opsScenario, run_append, runFrom_single]
    simp only [stepOp]
  have hs0 : (run w opsCreate3).1 =
      (⟨[⟨formatId 1, "Find a cheap sedan", "sales", .idle, none, none, 0, 3⟩,
         ⟨formatId 2, "Explain a 60-month loan", "finance", .idle, none, none,
           0, 3⟩,
         ⟨formatId 3, "anything", "bogus", .idle, none, none, 0, 3⟩],
        [0, 1, 2], [],
        [("sales", ⟨.idle, 0⟩), ("appraisal", ⟨.idle, 0⟩),
         ("finance", ⟨.idle, 0⟩), ("manager", ⟨.idle, 0⟩)], 0⟩ : OrchState) :=
    rfl
  have ha1 := assign_task_valid w
    ⟨[⟨formatId 1, "Find a cheap sedan", "sales", .idle, none, none, 0, 3⟩,
      ⟨formatId 2, "Explain a 60-month loan", "finance", .idle, none, none,
        0, 3⟩,
      ⟨formatId 3, "anything", "bogus", .idle, none, none, 0, 3⟩],
     [0, 1, 2], [],
     [("sales", ⟨.idle, 0⟩), ("appraisal", ⟨.idle, 0⟩),
      ("finance", ⟨.idle, 0⟩), ("manager", ⟨.idle, 0⟩)], 0⟩
    0 ⟨formatId 1, "Find a cheap sedan", "sales", .idle, none, none, 0, 3⟩
    rfl (by decide) rfl (by decide) (hval 0)
  have hn1 : procAllNext w
      ⟨[⟨formatId 1, "Find a cheap sedan", "sales", .idle, none, none, 0, 3⟩,
        ⟨formatId 2, "Explain a 60-month loan", "finance", .idle, none, none,
          0, 3⟩,
        ⟨formatId 3, "anything", "bogus", .idle, none, none, 0, 3⟩],
       [0, 1, 2], [],
       [("sales", ⟨.idle, 0⟩), ("appraisal", ⟨.idle, 0⟩),
        ("finance", ⟨.idle, 0⟩), ("manager", ⟨.idle, 0⟩)], 0⟩ 0 =
      ⟨[⟨formatId 1, "Find a cheap sedan", "sales", .completed,
          some (pyStrip (w.gen 0)), some (w.clock 1), 0, 3⟩,
        ⟨formatId 2, "Explain a 60-month loan", "finance", .idle, none, none,
          0, 3⟩,
        ⟨formatId 3, "anything", "bogus", .idle, none, none, 0, 3⟩],
       [1, 2], [0],
       [("sales", ⟨.completed, 1⟩), ("appraisal", ⟨.idle, 0⟩),
        ("finance", ⟨.idle, 0⟩), ("manager", ⟨.idle, 0⟩)], 1⟩ := by
    simp [procAllNext, ha1, updateAgent, lookupAgent]
  have ha2 := assign_task_valid w
    ⟨[⟨formatId 1, "Find a cheap sedan", "sales", .completed,
        some (pyStrip (w.gen 0)), some (w.clock 1), 0, 3⟩,
      ⟨formatId 2, "Explain a 60-month loan", "finance", .idle, none, none,
        0, 3⟩,
      ⟨formatId 3, "anything", "bogus", .idle, none, none, 0, 3⟩],
     [1, 2], [0],
     [("sales", ⟨.completed, 1⟩), ("appraisal", ⟨.idle, 0⟩),
      ("finance", ⟨.idle, 0⟩), ("manager", ⟨.idle, 0⟩)], 1⟩
    1 ⟨formatId 2, "Explain a 60-month loan", "finance", .idle, none, none,
        0, 3⟩
    rfl (by decide) rfl (by decide) (hval 1)
  have hn2 : procAllNext w
      ⟨[⟨formatId 1, "Find a cheap sedan", "sales", .completed,
          some (pyStrip (w.gen 0)), some (w.clock 1), 0, 3⟩,
        ⟨formatId 2, "Explain a 60-month loan", "finance", .idle, none, none,
          0, 3⟩,
        ⟨formatId 3, "anything", "bogus", .idle, none, none, 0, 3⟩],
       [1, 2], [0],
       [("sales", ⟨.completed, 1⟩), ("appraisal", ⟨.idle, 0⟩),
        ("finance", ⟨.idle, 0⟩), ("manager", ⟨.idle, 0⟩)], 1⟩ 1 =
      ⟨[⟨formatId 1, "Find a cheap sedan", "sales", .completed,
          some (pyStrip (w.gen 0)), some (w.clock 1), 0, 3⟩,
        ⟨formatId 2, "Explain a 60-month loan", "finance", .completed,
          some (pyStrip (w.gen 1)), some (w.clock 2), 0, 3⟩,
        ⟨formatId 3, "anything", "bogus", .idle, none, none, 0, 3⟩],
       [2], [0, 1],
       [("sales", ⟨.completed, 1⟩), ("appraisal", ⟨.idle, 0⟩),
        ("finance", ⟨.completed, 1⟩), ("manager", ⟨.idle, 0⟩)], 2⟩ := by
    simp [procAllNext, ha2, updateAgent, lookupAgent]
  have ha3 := assign_task_unknown w
    ⟨[⟨formatId 1, "Find a cheap sedan", "sales", .completed,
        some (pyStrip (w.gen 0)), some (w.clock 1), 0, 3⟩,
      ⟨formatId 2, "Explain a 60-month loan", "finance", .completed,
        some (pyStrip (w.gen 1)), some (w.clock 2), 0, 3⟩,
      ⟨formatId 3, "anything", "bogus", .idle, none, none, 0, 3⟩],
     [2], [0, 1],
     [("sales", ⟨.completed, 1⟩), ("appraisal", ⟨.idle, 0⟩),
      ("finance", ⟨.completed, 1⟩), ("manager", ⟨.idle, 0⟩)], 2⟩
    2 ⟨formatId 3, "anything", "bogus", .idle, none, none, 0, 3⟩
    rfl (by decide)
  have hn3 : procAllNext w
      ⟨[⟨formatId 1, "Find a cheap sedan", "sales", .completed,
          some (pyStrip (w.gen 0)), some (w.clock 1), 0, 3⟩,
        ⟨formatId 2, "Explain a 60-month loan", "finance", .completed,
          some (pyStrip (w.gen 1)), some (w.clock 2), 0, 3⟩,
        ⟨formatId 3, "anything", "bogus", .idle, none, none, 0, 3⟩],
       [2], [0, 1],
       [("sales", ⟨.completed, 1⟩), ("appraisal", ⟨.idle, 0⟩),
        ("finance", ⟨.completed, 1⟩), ("manager", ⟨.idle, 0⟩)], 2⟩ 2 =
      ⟨[⟨formatId 1, "Find a cheap sedan", "sales", .completed,
          some (pyStrip (w.gen 0)), some (w.clock 1), 0, 3⟩,
        ⟨formatId 2, "Explain a 60-month loan", "finance", .completed,
          some (pyStrip (w.gen 1)), some (w.clock 2), 0, 3⟩,
        ⟨formatId 3, "anything", "bogus", .error,
          some (unknownTypeMsg "bogus"), none, 0, 3⟩],
       [], [0, 1],
       [("sales", ⟨.completed, 1⟩), ("appraisal", ⟨.idle, 0⟩),
        ("finance", ⟨.completed, 1⟩), ("manager", ⟨.idle, 0⟩)], 2⟩ := by
    simp [procAllNext, ha3]
  have hp1 := procAllLoop_cons w
    ⟨[⟨formatId 1, "Find a cheap sedan", "sales", .idle, none, none, 0, 3⟩,
      ⟨formatId 2, "Explain a 60-month loan", "finance", .idle, none, none,
        0, 3⟩,
      ⟨formatId 3, "anything", "bogus", .idle, none, none, 0, 3⟩],
     [0, 1, 2], [],
     [("sales", ⟨.idle, 0⟩), ("appraisal", ⟨.idle, 0⟩),
      ("finance", ⟨.idle, 0⟩), ("manager", ⟨.idle, 0⟩)], 0⟩
    2 0 [1, 2] rfl
  rw [hn1] at hp1
  have hp2 := procAllLoop_cons w
    ⟨[⟨formatId 1, "Find a cheap sedan", "sales", .completed,
        some (pyStrip (w.gen 0)), some (w.clock 1), 0, 3⟩,
      ⟨formatId 2, "Explain a 60-month loan", "finance", .idle, none, none,
        0, 3⟩,
      ⟨formatId 3, "anything", "bogus", .idle, none, none, 0, 3⟩],
     [1, 2], [0],
     [("sales", ⟨.completed, 1⟩), ("appraisal", ⟨.idle, 0⟩),
      ("finance", ⟨.idle, 0⟩), ("manager", ⟨.idle, 0⟩)], 1⟩
    1 1 [2] rfl
  rw [hn2] at hp2
  have hp3 := procAllLoop_cons w
    ⟨[⟨formatId 1, "Find a cheap sedan", "sales", .completed,
        some (pyStrip (w.gen 0)), some (w.clock 1), 0, 3⟩,
      ⟨formatId 2, "Explain a 60-month loan", "finance", .completed,
        some (pyStrip (w.gen 1)), some (w.clock 2), 0, 3⟩,
      ⟨formatId 3, "anything", "bogus", .idle, none, none, 0, 3⟩],
     [2], [0, 1],
     [("sales", ⟨.completed, 1⟩), ("appraisal", ⟨.idle, 0⟩),
      ("finance", ⟨.completed, 1⟩), ("manager", ⟨.idle, 0⟩)], 2⟩
    0 2 [] rfl
  rw [hn3] at hp3
  rw [hrun, hs0, hp1, hp2, hp3]
  refine ⟨rfl, rfl, rfl, rfl, rfl, rfl, rfl⟩

theorem claim_C1_witness :
    (∀ k, validate_result (wCanned.gen k) = .ok (pyStrip (wCanned.gen k))) ∧
    ((run wCanned opsScenario).1.tasks.map Task.status =
        [AgentStatus.completed, AgentStatus.completed, AgentStatus.error] ∧
      (lookupAgent (run wCanned opsScenario).1.agents "sales").tasks_completed
        = 1 ∧
      (lookupAgent (run wCanned opsScenario).1.agents "finance").tasks_completed
        = 1 ∧
      (run wCanned opsScenario).1.completed_tasks.length = 2 ∧
      (run wCanned opsScenario).1.task_queue = [] ∧
      (procAllLoop wCanned (run wCanned opsCreate3).1 3).2.2 = true ∧
      (run wCanned opsScenario).1.tasks.map Task.result =
        [some (pyStrip (wCanned.gen 0)), some (pyStrip (wCanned.gen 1)),
         some (unknownTypeMsg "bogus")]) :=
  ⟨fun _ => rfl, claim_C1 wCanned (fun _ => rfl)⟩

/-! ### Outcome classification of the dispatcher retry loop -/

/-- With the exact fuel `max_retries - retry_count`, a run of the dispatcher
retry loop either does nothing (exhausted budget), completes the task, or
fails it; in the terminal cases the only non-sleep events are the final
status (and timestamp) writes for `ref`. -/
lemma ptLoop_classify (w : World) (ref : Nat) :
    ∀ fuel (a : AgentState) (t : Task) (calls : Nat),
      t.max_retries - t.retry_count = fuel →
      (fuel = 0 ∧ ptLoop w ref a t calls fuel =
          ⟨a, t, "Task failed after all retries", calls, []⟩)
      ∨ (∃ (r v : String) (sl : List ℚ) (n2 : Nat) (a2 : AgentState),
          ptLoop w ref a t calls fuel =
            ⟨a2,
             { t with
                result := some r, status := .completed, timestamp := some v,
                retry_count := t.retry_count + sl.length },
             r, n2,
             sl.map Ev.sleepD ++
               [Ev.statusW ref .completed, Ev.tstampW ref v]⟩)
      ∨ (∃ (m : String) (sl : List ℚ) (n2 : Nat),
          ptLoop w ref a t calls fuel =
            ⟨{ a with status := .error },
             { t with
                result := some m, status := .error,
                retry_count := t.max_retries },
             m, n2, sl.map Ev.sleepD ++ [Ev.statusW ref .error]⟩) := by
  intro fuel
  induction fuel with
  | zero =>
    intro a t calls _
    exact Or.inl ⟨rfl, ptLoop_zero w ref a t calls⟩
  | succ n ih =>
    intro a t calls hfuel
    have hrc : t.retry_count < t.max_retries := by omega
    rcases hv : validate_result (w.gen calls) with e | r
    · rw [ptLoop_invalid_step w ref a t calls n e hv hrc]
      by_cases hterm : t.max_retries ≤ t.retry_count + 1
      · rw [if_pos hterm]
        refine Or.inr (Or.inr ⟨taskFailMsg t.max_retries e, [], calls + 1, ?_⟩)
        have hmax : t.retry_count + 1 = t.max_retries := by omega
        simp [hmax]
      · rw [if_neg hterm]
        rcases ih a { t with retry_count := t.retry_count + 1 } (calls + 1)
            (by simp; omega) with ⟨h0, _⟩ | ⟨r, v, sl, n2, a2, hpt⟩ |
          ⟨m, sl, n2, hpt⟩
        · omega
        · refine Or.inr (Or.inl ⟨r, v, (3 / 2 : ℚ) ^ (t.retry_count + 1) :: sl,
            n2, a2, ?_⟩)
          rw [hpt]
          simp
          omega
        · refine Or.inr (Or.inr ⟨m, (3 / 2 : ℚ) ^ (t.retry_count + 1) :: sl,
            n2, ?_⟩)
          rw [hpt]
          simp
    · rw [ptLoop_valid_step w ref a t calls n r hv hrc]
      exact Or.inr (Or.inl ⟨r, w.clock (calls + 1), [], calls + 1,
        { a with
           status := .completed, tasks_completed := a.tasks_completed + 1 },
        by simp⟩)

/-- Outcome classification of `assign_task` on a stored task of a registered
persona type with remaining retry budget: the task either completes (and
moves from the queue to the completed list) or fails (and stays put); the
event trace is the InProgress write, the retry sleeps, and the terminal
writes for `ref`. -/
lemma assign_task_classify (w : World) (s : OrchState) (ref : Nat) (t : Task)
    (ht : s.tasks[ref]? = some t) (hk : t.agent_type ∈ registryKeys)
    (hrc : t.retry_count < t.max_retries) :
    (∃ (r v : String) (sl : List ℚ)
        (ags2 : List (String × AgentState)) (n2 rc2 : Nat),
      assign_task w s ref =
        ⟨{ s with
            tasks := s.tasks.set ref { t with
              result := some r, status := .completed, timestamp := some v,
              retry_count := rc2 },
            task_queue := s.task_queue.erase ref,
            completed_tasks := s.completed_tasks ++ [ref],
            agents := ags2, calls := n2 },
         r,
         Ev.statusW ref .working ::
           (sl.map Ev.sleepD ++
             [Ev.statusW ref .completed, Ev.tstampW ref v])⟩)
    ∨ (∃ (m : String) (sl : List ℚ)
        (ags2 : List (String × AgentState)) (n2 : Nat),
      assign_task w s ref =
        ⟨{ s with
            tasks := s.tasks.set ref { t with
              result := some m, status := .error,
              retry_count := t.max_retries },
            agents := ags2, calls := n2 },
         m,
         Ev.statusW ref .working ::
           (sl.map Ev.sleepD ++ [Ev.statusW ref .error])⟩) := by
  rcases ptLoop_classify w ref (t.max_retries - t.retry_count)
      { (lookupAgent (updateAgent s.agents t.agent_type
          fun a => { a with status := .working }) t.agent_type) with
          status := AgentStatus.working }
      { t with status := AgentStatus.working } s.calls (by simp) with
    ⟨h0, _⟩ | ⟨r, v, sl, n2, a2, hpt⟩ | ⟨m, sl, n2, hpt⟩
  · omega
  · refine Or.inl ⟨r, v, sl,
      updateAgent (updateAgent s.agents t.agent_type
        fun a => { a with status := .working }) t.agent_type (fun _ => a2),
      n2, t.retry_count + sl.length, ?_⟩
    have hp : process_task w ref
        (lookupAgent (updateAgent s.agents t.agent_type
          fun a => { a with status := .working }) t.agent_type) t s.calls =
        ⟨a2,
         { t with
            result := some r, status := .completed, timestamp := some v,
            retry_count := t.retry_count + sl.length },
         r, n2,
         Ev.statusW ref .working ::
           (sl.map Ev.sleepD ++
             [Ev.statusW ref .completed, Ev.tstampW ref v])⟩ := by
      simp only [process_task]
      rw [hpt]
    simp [assign_task, ht, hk, hp]
  · refine Or.inr ⟨m, sl,
      updateAgent (updateAgent s.agents t.agent_type
        fun a => { a with status := .working }) t.agent_type
        (fun _ => { (lookupAgent (updateAgent s.agents t.agent_type
          fun a => { a with status := .working }) t.agent_type) with
            status := .error }),
      n2, ?_⟩
    have hp : process_task w ref
        (lookupAgent (updateAgent s.agents t.agent_type
          fun a => { a with status := .working }) t.agent_type) t s.calls =
        ⟨{ (lookupAgent (updateAgent s.agents t.agent_type
             fun a => { a with status := .working }) t.agent_type) with
             status := .error },
         { t with
            result := some m, status := .error,
            retry_count := t.max_retries },
         m, n2,
         Ev.statusW ref .working ::
           (sl.map Ev.sleepD ++ [Ev.statusW ref .error])⟩ := by
      simp only [process_task]
      rw [hpt]
    simp [assign_task, ht, hk, hp]


/-! ### Per-task write extraction lemmas -/

lemma statusWrites_append (r : Nat) (l1 l2 : List Ev) :
    statusWrites r (l1 ++ l2) = statusWrites r l1 ++ statusWrites r l2 := by
  simp [statusWrites]

lemma tstampWrites_append (r : Nat) (l1 l2 : List Ev) :
    tstampWrites r (l1 ++ l2) = tstampWrites r l1 ++ tstampWrites r l2 := by
  simp [tstampWrites]

lemma statusWrites_statusW_cons (r r' : Nat) (st : AgentStatus) (l : List Ev) :
    statusWrites r (Ev.statusW r' st :: l) =
      if r' = r then st :: statusWrites r l else statusWrites r l := by
  by_cases hr : r' = r <;> simp [statusWrites, List.filterMap_cons, hr]

lemma statusWrites_tstampW_cons (r r' : Nat) (v : String) (l : List Ev) :
    statusWrites r (Ev.tstampW r' v :: l) = statusWrites r l := by
  simp [statusWrites, List.filterMap_cons]

lemma statusWrites_sleepD_cons (r : Nat) (q : ℚ) (l : List Ev) :
    statusWrites r (Ev.sleepD q :: l) = statusWrites r l := by
  simp [statusWrites, List.filterMap_cons]

lemma tstampWrites_statusW_cons (r r' : Nat) (st : AgentStatus) (l : List Ev) :
    tstampWrites r (Ev.statusW r' st :: l) = tstampWrites r l := by
  simp [tstampWrites, List.filterMap_cons]

lemma tstampWrites_tstampW_cons (r r' : Nat) (v : String) (l : List Ev) :
    tstampWrites r (Ev.tstampW r' v :: l) =
      if r' = r then v :: tstampWrites r l else tstampWrites r l := by
  by_cases hr : r' = r <;> simp [tstampWrites, List.filterMap_cons, hr]

lemma tstampWrites_sleepD_cons (r : Nat) (q : ℚ) (l : List Ev) :
    tstampWrites r (Ev.sleepD q :: l) = tstampWrites r l := by
  simp [tstampWrites, List.filterMap_cons]

lemma statusWrites_nil (r : Nat) : statusWrites r [] = [] := rfl

lemma tstampWrites_nil (r : Nat) : tstampWrites r [] = [] := rfl

lemma statusWrites_map_sleepD (r : Nat) (sl : List ℚ) :
    statusWrites r (sl.map Ev.sleepD) = [] := by
  induction sl with
  | nil => rfl
  | cons q qs ih => rw [List.map_cons, statusWrites_sleepD_cons, ih]

lemma tstampWrites_map_sleepD (r : Nat) (sl : List ℚ) :
    tstampWrites r (sl.map Ev.sleepD) = [] := by
  induction sl with
  | nil => rfl
  | cons q qs ih => rw [List.map_cons, tstampWrites_sleepD_cons, ih]

/-- Writes of the event block of a completing `assign_task`. -/
lemma statusWrites_completed_block (ref r : Nat) (sl : List ℚ) (v : String) :
    statusWrites r (Ev.statusW ref .working ::
        (sl.map Ev.sleepD ++
          [Ev.statusW ref .completed, Ev.tstampW ref v])) =
      if ref = r then [AgentStatus.working, AgentStatus.completed] else [] := by
  rw [statusWrites_statusW_cons, statusWrites_append, statusWrites_map_sleepD,
    statusWrites_statusW_cons, statusWrites_tstampW_cons, statusWrites_nil]
  by_cases hr : ref = r <;> simp [hr]

lemma tstampWrites_completed_block (ref r : Nat) (sl : List ℚ) (v : String) :
    tstampWrites r (Ev.statusW ref .working ::
        (sl.map Ev.sleepD ++
          [Ev.statusW ref .completed, Ev.tstampW ref v])) =
      if ref = r then [v] else [] := by
  rw [tstampWrites_statusW_cons, tstampWrites_append, tstampWrites_map_sleepD,
    tstampWrites_statusW_cons, tstampWrites_tstampW_cons, tstampWrites_nil]
  by_cases hr : ref = r <;> simp [hr]

/-- Writes of the event block of a failing `assign_task` (registered type). -/
lemma statusWrites_error_block (ref r : Nat) (sl : List ℚ) :
    statusWrites r (Ev.statusW ref .working ::
        (sl.map Ev.sleepD ++ [Ev.statusW ref .error])) =
      if ref = r then [AgentStatus.working, AgentStatus.error] else [] := by
  rw [statusWrites_statusW_cons, statusWrites_append, statusWrites_map_sleepD,
    statusWrites_statusW_cons, statusWrites_nil]
  by_cases hr : ref = r <;> simp [hr]

lemma tstampWrites_error_block (ref r : Nat) (sl : List ℚ) :
    tstampWrites r (Ev.statusW ref .working ::
        (sl.map Ev.sleepD ++ [Ev.statusW ref .error])) = [] := by
  rw [tstampWrites_statusW_cons, tstampWrites_append, tstampWrites_map_sleepD,
    tstampWrites_statusW_cons, tstampWrites_nil]
  rfl

/-- Writes of the event block of an unknown-persona `assign_task`. -/
lemma statusWrites_unknown_block (ref r : Nat) :
    statusWrites r [Ev.statusW ref .error] =
      if ref = r then [AgentStatus.error] else [] := by
  rw [statusWrites_statusW_cons, statusWrites_nil]

lemma tstampWrites_unknown_block (ref r : Nat) :
    tstampWrites r [Ev.statusW ref .error] = [] := rfl

/-! ### The reachable-state invariant of safe traces -/

/-- Invariant of states reachable by `create_task` and `process_all_tasks`
operations, together with the accumulated write events.  Queue members are
untouched fresh tasks; every other allocated slot has been processed to
exactly one terminal status with the corresponding write history. -/
structure Reach (s : OrchState) (evs : List Ev) : Prop where
  q_lt : ∀ r ∈ s.task_queue, r < s.tasks.length
  c_lt : ∀ r ∈ s.completed_tasks, r < s.tasks.length
  q_nd : s.task_queue.Nodup
  c_nd : s.completed_tasks.Nodup
  disj : ∀ r ∈ s.task_queue, r ∉ s.completed_tasks
  fresh : ∀ r ∈ s.task_queue, ∃ t, s.tasks[r]? = some t ∧
    t.status = AgentStatus.idle ∧ t.retry_count = 0 ∧ 0 < t.max_retries ∧
    t.timestamp = none ∧ statusWrites r evs = [] ∧ tstampWrites r evs = []
  proc : ∀ r, r < s.tasks.length → r ∉ s.task_queue →
    ∃ t, s.tasks[r]? = some t ∧
      ((r ∈ s.completed_tasks ∧ t.status = AgentStatus.completed ∧
        statusWrites r evs = [AgentStatus.working, AgentStatus.completed] ∧
        ∃ v, tstampWrites r evs = [v] ∧ t.timestamp = some v)
       ∨ (r ∉ s.completed_tasks ∧ t.status = AgentStatus.error ∧
          (statusWrites r evs = [AgentStatus.working, AgentStatus.error] ∨
            statusWrites r evs = [AgentStatus.error]) ∧
          tstampWrites r evs = [] ∧ t.timestamp = none))
  far : ∀ r, s.tasks.length ≤ r →
    statusWrites r evs = [] ∧ tstampWrites r evs = []

lemma reach_init : Reach initState [] := by
  refine ⟨?_, ?_, ?_, ?_, ?_, ?_, ?_, ?_⟩ <;>
    simp [initState, statusWrites_nil, tstampWrites_nil]

/-- Appending a sleep event preserves the invariant. -/
lemma Reach.append_sleepD {s : OrchState} {evs : List Ev} (h : Reach s evs)
    (q : ℚ) : Reach s (evs ++ [Ev.sleepD q]) := by
  have hs : ∀ r, statusWrites r (evs ++ [Ev.sleepD q]) = statusWrites r evs :=
    fun r => by
      rw [statusWrites_append, statusWrites_sleepD_cons, statusWrites_nil,
        List.append_nil]
  have hts : ∀ r, tstampWrites r (evs ++ [Ev.sleepD q]) = tstampWrites r evs :=
    fun r => by
      rw [tstampWrites_append, tstampWrites_sleepD_cons, tstampWrites_nil,
        List.append_nil]
  refine ⟨h.q_lt, h.c_lt, h.q_nd, h.c_nd, h.disj, ?_, ?_, ?_⟩
  · intro r hr
    obtain ⟨t, ht, h1, h2, h3, h4, h5, h6⟩ := h.fresh r hr
    exact ⟨t, ht, h1, h2, h3, h4, by rw [hs]; exact h5, by rw [hts]; exact h6⟩
  · intro r hr hnq
    obtain ⟨t, ht, hcase⟩ := h.proc r hr hnq
    refine ⟨t, ht, ?_⟩
    rw [hs, hts]
    exact hcase
  · intro r hr
    rw [hs, hts]
    exact h.far r hr

/-- `create_task` preserves the invariant. -/
lemma reach_create (s : OrchState) (evs : List Ev) (d a : String)
    (h : Reach s evs) : Reach (create_task s d a).1 evs := by
  refine ⟨?_, ?_, ?_, ?_, ?_, ?_, ?_, ?_⟩
  · intro r hr
    simp only [create_task] at hr ⊢
    rcases List.mem_append.1 hr with h1 | h1
    · have := h.q_lt r h1
      simp
      omega
    · simp at h1
      simp [h1]
  · intro r hr
    simp only [create_task] at hr ⊢
    have := h.c_lt r hr
    simp
    omega
  · simp only [create_task]
    rw [List.nodup_append]
    refine ⟨h.q_nd, List.nodup_singleton _, ?_⟩
    intro r hr hr2
    simp at hr2
    have := h.q_lt r hr
    omega
  · exact h.c_nd
  · intro r hr
    simp only [create_task] at hr
    rcases List.mem_append.1 hr with h1 | h1
    · exact h.disj r h1
    · simp at h1
      subst h1
      intro hc
      have := h.c_lt _ hc
      omega
  · intro r hr
    simp only [create_task] at hr ⊢
    rcases List.mem_append.1 hr with h1 | h1
    · obtain ⟨t, ht, hrest⟩ := h.fresh r h1
      refine ⟨t, ?_, hrest⟩
      rw [List.getElem?_append, if_pos (h.q_lt r h1)]
      exact ht
    · simp at h1
      subst h1
      refine ⟨_, List.getElem?_concat_length _ _, rfl, rfl, by simp, rfl,
        (h.far _ le_rfl).1, (h.far _ le_rfl).2⟩
  · intro r hr hnq
    simp only [create_task, List.length_append, List.length_singleton] at hr hnq ⊢
    have hr' : r < s.tasks.length := by
      rcases Nat.lt_or_ge r s.tasks.length with h1 | h1
      · exact h1
      · exfalso
        have : r = s.tasks.length := by omega
        exact hnq (List.mem_append.2 (Or.inr (by simp [this])))
    have hnq' : r ∉ s.task_queue := fun hc =>
      hnq (List.mem_append.2 (Or.inl hc))
    obtain ⟨t, ht, hcase⟩ := h.proc r hr' hnq'
    refine ⟨t, ?_, hcase⟩
    rw [List.getElem?_append, if_pos hr']
    exact ht
  · intro r hr
    simp only [create_task, List.length_append, List.length_singleton] at hr
    exact h.far r (by omega)

/-- One `process_all_tasks` iteration body preserves the invariant. -/
lemma reach_iter (w : World) (s : OrchState) (evs : List Ev) (ref : Nat)
    (rest : List Nat) (h : Reach s evs) (hq : s.task_queue = ref :: rest) :
    Reach (procAllNext w s ref) (evs ++ (assign_task w s ref).evs) := by
  have hmem : ref ∈ s.task_queue := by rw [hq]; exact List.mem_cons_self _ _
  obtain ⟨t, ht, hst, hrc, hmx, hts, hsw, htw⟩ := h.fresh ref hmem
  have hlen : ref < s.tasks.length := h.q_lt ref hmem
  have hnc : ref ∉ s.completed_tasks := h.disj ref hmem
  by_cases hk : t.agent_type ∈ registryKeys
  · rcases assign_task_classify w s ref t ht hk (by omega) with
      ⟨r0, v, sl, ags2, n2, rc2, ha⟩ | ⟨m, sl, ags2, n2, ha⟩
    · -- the task completed and moved to the completed list
      have hnext : procAllNext w s ref = (assign_task w s ref).state := by
        rw [procAllNext]
        rw [ha]
        simp [List.getElem?_set_self hlen]
      rw [hnext, ha]
      have hsw2 : ∀ r, statusWrites r (evs ++ (Ev.statusW ref .working ::
          (sl.map Ev.sleepD ++
            [Ev.statusW ref .completed, Ev.tstampW ref v]))) =
          statusWrites r evs ++
            (if ref = r then [AgentStatus.working, AgentStatus.completed]
             else []) := fun r => by
        rw [statusWrites_append, statusWrites_completed_block]
      have htw2 : ∀ r, tstampWrites r (evs ++ (Ev.statusW ref .working ::
          (sl.map Ev.sleepD ++
            [Ev.statusW ref .completed, Ev.tstampW ref v]))) =
          tstampWrites r evs ++ (if ref = r then [v] else []) := fun r => by
        rw [tstampWrites_append, tstampWrites_completed_block]
      refine ⟨?_, ?_, ?_, ?_, ?_, ?_, ?_, ?_⟩
      · intro r hr
        simp only at hr ⊢
        rw [List.length_set]
        have : r ∈ s.task_queue :=
          ((h.q_nd.mem_erase_iff).1 hr).2
        exact h.q_lt r this
      · intro r hr
        simp only at hr ⊢
        rw [List.length_set]
        rcases List.mem_append.1 hr with h1 | h1
        · exact h.c_lt r h1
        · simp at h1; omega
      · exact h.q_nd.erase ref
      · simp only
        rw [List.nodup_append]
        exact ⟨h.c_nd, List.nodup_singleton _,
          fun a ha1 ha2 => by simp at ha2; subst ha2; exact hnc ha1⟩
      · intro r hr
        simp only at hr ⊢
        have hr2 := (h.q_nd.mem_erase_iff).1 hr
        intro hcon
        rcases List.mem_append.1 hcon with h1 | h1
        · exact h.disj r hr2.2 h1
        · simp at h1; exact hr2.1 h1
      · intro r hr
        simp only at hr ⊢
        have hr2 := (h.q_nd.mem_erase_iff).1 hr
        obtain ⟨u, hu, h1, h2, h3, h4, h5, h6⟩ := h.fresh r hr2.2
        have hne : ref ≠ r := fun he => hr2.1 he.symm
        refine ⟨u, ?_, h1, h2, h3, h4, ?_, ?_⟩
        · rw [List.getElem?_set_ne hne]; exact hu
        · rw [hsw2, if_neg hne, List.append_nil]; exact h5
        · rw [htw2, if_neg hne, List.append_nil]; exact h6
      · intro r hr hnq
        simp only at hr hnq ⊢
        rw [List.length_set] at hr
        by_cases hre : ref = r
        · subst hre
          refine ⟨_, List.getElem?_set_self hlen, Or.inl ⟨?_, rfl, ?_, ?_⟩⟩
          · exact List.mem_append.2 (Or.inr (by simp))
          · rw [hsw2, if_pos rfl, hsw]; rfl
          · exact ⟨v, by rw [htw2, if_pos rfl, htw]; rfl, rfl⟩
        · have hnq' : r ∉ s.task_queue := by
            intro hc
            exact hnq ((h.q_nd.mem_erase_iff).2 ⟨fun he => hre he.symm, hc⟩)
          obtain ⟨u, hu, hcase⟩ := h.proc r hr hnq'
          refine ⟨u, by rw [List.getElem?_set_ne hre]; exact hu, ?_⟩
          rw [hsw2 r, htw2 r, if_neg hre, if_neg hre, List.append_nil,
            List.append_nil]
          rcases hcase with ⟨h1, h2, h3, v2, h4, h5⟩ | ⟨h1, h2, h3, h4, h5⟩
          · exact Or.inl ⟨List.mem_append.2 (Or.inl h1), h2, h3, v2, h4, h5⟩
          · refine Or.inr ⟨?_, h2, h3, h4, h5⟩
            intro hc
            rcases List.mem_append.1 hc with hc1 | hc1
            · exact h1 hc1
            · simp at hc1; exact hre hc1.symm
      · intro r hr
        simp only at hr ⊢
        rw [List.length_set] at hr
        have hne : ref ≠ r := by omega
        rw [hsw2, htw2, if_neg hne, if_neg hne, List.append_nil,
          List.append_nil]
        exact h.far r hr
    · -- the task failed after exhausting retries; the loop body drops it
      have hnext : procAllNext w s ref =
          { (assign_task w s ref).state with
             task_queue := (assign_task w s ref).state.task_queue.erase ref } := by
        rw [procAllNext]
        rw [ha]
        simp [List.getElem?_set_self hlen]
      rw [hnext, ha]
      have hsw2 : ∀ r, statusWrites r (evs ++ (Ev.statusW ref .working ::
          (sl.map Ev.sleepD ++ [Ev.statusW ref .error]))) =
          statusWrites r evs ++
            (if ref = r then [AgentStatus.working, AgentStatus.error]
             else []) := fun r => by
        rw [statusWrites_append, statusWrites_error_block]
      have htw2 : ∀ r, tstampWrites r (evs ++ (Ev.statusW ref .working ::
          (sl.map Ev.sleepD ++ [Ev.statusW ref .error]))) =
          tstampWrites r evs := fun r => by
        rw [tstampWrites_append, tstampWrites_error_block, List.append_nil]
      refine ⟨?_, ?_, ?_, ?_, ?_, ?_, ?_, ?_⟩
      · intro r hr
        simp only at hr ⊢
        rw [List.length_set]
        exact h.q_lt r ((h.q_nd.mem_erase_iff).1 hr).2
      · intro r hr
        simp only at hr ⊢
        rw [List.length_set]
        exact h.c_lt r hr
      · exact h.q_nd.erase ref
      · exact h.c_nd
      · intro r hr
        exact h.disj r ((h.q_nd.mem_erase_iff).1 hr).2
      · intro r hr
        simp only at hr ⊢
        have hr2 := (h.q_nd.mem_erase_iff).1 hr
        obtain ⟨u, hu, h1, h2, h3, h4, h5, h6⟩ := h.fresh r hr2.2
        have hne : ref ≠ r := fun he => hr2.1 he.symm
        refine ⟨u, ?_, h1, h2, h3, h4, ?_, ?_⟩
        · rw [List.getElem?_set_ne hne]; exact hu
        · rw [hsw2, if_neg hne, List.append_nil]; exact h5
        · rw [htw2]; exact h6
      · intro r hr hnq
        simp only at hr hnq ⊢
        rw [List.length_set] at hr
        by_cases hre : ref = r
        · subst hre
          refine ⟨_, List.getElem?_set_self hlen,
            Or.inr ⟨hnc, rfl, Or.inl ?_, ?_, ?_⟩⟩
          · rw [hsw2, if_pos rfl, hsw]; rfl
          · rw [htw2]; exact htw
          · exact hts
        · have hnq' : r ∉ s.task_queue := by
            intro hc
            exact hnq ((h.q_nd.mem_erase_iff).2 ⟨fun he => hre he.symm, hc⟩)
          obtain ⟨u, hu, hcase⟩ := h.proc r hr hnq'
          refine ⟨u, by rw [List.getElem?_set_ne hre]; exact hu, ?_⟩
          rw [hsw2 r, htw2 r, if_neg hre, List.append_nil]
          exact hcase
      · intro r hr
        simp only at hr ⊢
        rw [List.length_set] at hr
        have hne : ref ≠ r := by omega
        rw [hsw2, htw2, if_neg hne, List.append_nil]
        exact h.far r hr
  · -- unknown persona type: marked failed, then dropped from the queue
    have ha := assign_task_unknown w s ref t ht hk
    have hnext : procAllNext w s ref =
        { (assign_task w s ref).state with
           task_queue := (assign_task w s ref).state.task_queue.erase ref } := by
      rw [procAllNext]
      rw [ha]
      simp [List.getElem?_set_self hlen]
    rw [hnext, ha]
    have hsw2 : ∀ r, statusWrites r (evs ++ [Ev.statusW ref .error]) =
        statusWrites r evs ++
          (if ref = r then [AgentStatus.error] else []) := fun r => by
      rw [statusWrites_append, statusWrites_unknown_block]
    have htw2 : ∀ r, tstampWrites r (evs ++ [Ev.statusW ref .error]) =
        tstampWrites r evs := fun r => by
      rw [tstampWrites_append, tstampWrites_unknown_block, List.append_nil]
    refine ⟨?_, ?_, ?_, ?_, ?_, ?_, ?_, ?_⟩
    · intro r hr
      simp only at hr ⊢
      rw [List.length_set]
      exact h.q_lt r ((h.q_nd.mem_erase_iff).1 hr).2
    · intro r hr
      simp only at hr ⊢
      rw [List.length_set]
      exact h.c_lt r hr
    · exact h.q_nd.erase ref
    · exact h.c_nd
    · intro r hr
      exact h.disj r ((h.q_nd.mem_erase_iff).1 hr).2
    · intro r hr
      simp only at hr ⊢
      have hr2 := (h.q_nd.mem_erase_iff).1 hr
      obtain ⟨u, hu, h1, h2, h3, h4, h5, h6⟩ := h.fresh r hr2.2
      have hne : ref ≠ r := fun he => hr2.1 he.symm
      refine ⟨u, ?_, h1, h2, h3, h4, ?_, ?_⟩
      · rw [List.getElem?_set_ne hne]; exact hu
      · rw [hsw2, if_neg hne, List.append_nil]; exact h5
      · rw [htw2]; exact h6
    · intro r hr hnq
      simp only at hr hnq ⊢
      rw [List.length_set] at hr
      by_cases hre : ref = r
      · subst hre
        refine ⟨_, List.getElem?_set_self hlen,
          Or.inr ⟨hnc, rfl, Or.inr ?_, ?_, ?_⟩⟩
        · rw [hsw2, if_pos rfl, hsw]; rfl
        · rw [htw2]; exact htw
        · exact hts
      · have hnq' : r ∉ s.task_queue := by
          intro hc
          exact hnq ((h.q_nd.mem_erase_iff).2 ⟨fun he => hre he.symm, hc⟩)
        obtain ⟨u, hu, hcase⟩ := h.proc r hr hnq'
        refine ⟨u, by rw [List.getElem?_set_ne hre]; exact hu, ?_⟩
        rw [hsw2 r, htw2 r, if_neg hre, List.append_nil]
        exact hcase
    · intro r hr
      simp only at hr ⊢
      rw [List.length_set] at hr
      have hne : ref ≠ r := by omega
      rw [hsw2, htw2, if_neg hne, List.append_nil]
      exact h.far r hr

/-- Processing the queue with any amount of fuel preserves the invariant. -/
lemma reach_procAllLoop (w : World) :
    ∀ (fuel : Nat) (s : OrchState) (evs : List Ev), Reach s evs →
      Reach (procAllLoop w s fuel).1 (evs ++ (procAllLoop w s fuel).2.1) := by
  intro fuel
  induction fuel with
  | zero =>
    intro s evs h
    rw [procAllLoop_zero]
    simpa using h
  | succ n ih =>
    intro s evs h
    cases hq : s.task_queue with
    | nil =>
      rw [procAllLoop_nil w s n hq]
      simpa using h
    | cons ref rest =>
      have h1 := reach_iter w s evs ref rest h hq
      have h2 := h1.append_sleepD (3 / 2)
      have h3 := ih (procAllNext w s ref) _ h2
      have heq :
          ((evs ++ (assign_task w s ref).evs) ++ [Ev.sleepD (3 / 2)]) ++
              (procAllLoop w (procAllNext w s ref) n).2.1 =
            evs ++ ((assign_task w s ref).evs ++
              Ev.sleepD (3 / 2) ::
                (procAllLoop w (procAllNext w s ref) n).2.1) := by
        simp
      rw [heq] at h3
      rw [procAllLoop_cons w s n ref rest hq]
      exact h3

/-- One safe operation preserves the invariant. -/
lemma reach_step (w : World) (s : OrchState) (evs : List Ev) (op : Op)
    (hop : isSafeOp op = true) (h : Reach s evs) :
    Reach (stepOp w s op).1 (evs ++ (stepOp w s op).2) := by
  cases op with
  | create d a =>
    have hc := reach_create s evs d a h
    rw [show (stepOp w s (Op.create d a)).2 = ([] : List Ev) from rfl,
      List.append_nil]
    exact hc
  | assign ref => simp [isSafeOp] at hop
  | procAll fuel => exact reach_procAllLoop w fuel s evs h

/-- Every safe trace started in an invariant state stays invariant. -/
lemma reach_runFrom (w : World) :
    ∀ (ops : List Op) (start : OrchState × List Ev),
      SafeOps ops → Reach start.1 start.2 →
      Reach (runFrom w start ops).1 (runFrom w start ops).2 := by
  intro ops
  induction ops with
  | nil => intro start _ h; exact h
  | cons op rest ih =>
    intro start hsafe h
    have hop : isSafeOp op = true := hsafe op (List.mem_cons_self _ _)
    have hrest : SafeOps rest := fun o ho => hsafe o (List.mem_cons_of_mem _ ho)
    have hstep := reach_step w start.1 start.2 op hop h
    have hrw : runFrom w start (op :: rest) =
        runFrom w ((stepOp w start.1 op).1,
          start.2 ++ (stepOp w start.1 op).2) rest := rfl
    rw [hrw]
    exact ih _ hrest hstep

/-- Every safe trace from a fresh orchestrator reaches an invariant state. -/
lemma reach_run (w : World) (ops : List Op) (hsafe : SafeOps ops) :
    Reach (run w ops).1 (run w ops).2 :=
  reach_runFrom w ops (initState, []) hsafe reach_init

/-- C7 (amended): under the dispatcher's own driving — task creation and
`process_all_tasks`, with direct re-assignment of already-processed tasks
excluded — every task's observed status-write sequence, prefixed with the
initial Pending status, follows only the spec's transitions
Pending→InProgress, InProgress→Completed, InProgress→Failed and
Pending→Failed, and at most one terminal status is ever written, so no task
is observed in two terminal states. -/
theorem claim_C7 (w : World) (ops : List Op) (hsafe : SafeOps ops) (r : Nat) :
    List.Chain' allowedStep
      (AgentStatus.idle :: statusWrites r (run w ops).2) ∧
    (statusWrites r (run w ops).2).countP terminalStatus ≤ 1 := by
  have h := reach_run w ops hsafe
  rcases Nat.lt_or_ge r (run w ops).1.tasks.length with hr | hr
  · by_cases hq : r ∈ (run w ops).1.task_queue
    · obtain ⟨t, -, -, -, -, -, h5, -⟩ := h.fresh r hq
      rw [h5]
      exact ⟨List.chain'_singleton _, by simp⟩
    · obtain ⟨t, -, hcase⟩ := h.proc r hr hq
      rcases hcase with ⟨-, -, h3, -⟩ | ⟨-, -, h3 | h3, -⟩ <;> rw [h3] <;>
        exact ⟨by simp [List.chain'_cons, List.chain'_singleton, allowedStep],
          by decide⟩
  · rw [(h.far r hr).1]
    exact ⟨List.chain'_singleton _, by simp⟩

/-- C7 witness: a concrete safe trace (create one task of an unknown persona
type, then process the queue) observed at task 0. -/
theorem claim_C7_witness :
    SafeOps opsDrop ∧
    (List.Chain' allowedStep
        (AgentStatus.idle :: statusWrites 0 (run wCanned opsDrop).2) ∧
      (statusWrites 0 (run wCanned opsDrop).2).countP terminalStatus ≤ 1) :=
  ⟨by decide, claim_C7 wCanned opsDrop (by decide) 0⟩

/-- C8 (amended): under the dispatcher's own driving, every allocated task
slot is in at most one of the two collections — still Pending in the queue,
or Completed in the completed list, or (a failed task) dropped from the
pending queue without ever joining the completed list — and both collections
are duplicate-free.  "Exactly one" fails: failed tasks are deleted. -/
theorem claim_C8 (w : World) (ops : List Op) (hsafe : SafeOps ops) (r : Nat)
    (hr : r < (run w ops).1.tasks.length) :
    ((r ∈ (run w ops).1.task_queue ∧ r ∉ (run w ops).1.completed_tasks ∧
        ∃ t, (run w ops).1.tasks[r]? = some t ∧
          t.status = AgentStatus.idle) ∨
     (r ∉ (run w ops).1.task_queue ∧ r ∈ (run w ops).1.completed_tasks ∧
        ∃ t, (run w ops).1.tasks[r]? = some t ∧
          t.status = AgentStatus.completed) ∨
     (r ∉ (run w ops).1.task_queue ∧ r ∉ (run w ops).1.completed_tasks ∧
        ∃ t, (run w ops).1.tasks[r]? = some t ∧
          t.status = AgentStatus.error)) ∧
    (run w ops).1.task_queue.Nodup ∧ (run w ops).1.completed_tasks.Nodup := by
  have h := reach_run w ops hsafe
  refine ⟨?_, h.q_nd, h.c_nd⟩
  by_cases hq : r ∈ (run w ops).1.task_queue
  · obtain ⟨t, ht, h1, -⟩ := h.fresh r hq
    exact Or.inl ⟨hq, h.disj r hq, t, ht, h1⟩
  · obtain ⟨t, ht, hcase⟩ := h.proc r hr hq
    rcases hcase with ⟨hc, hst, -⟩ | ⟨hc, hst, -⟩
    · exact Or.inr (Or.inl ⟨hq, hc, t, ht, hst⟩)
    · exact Or.inr (Or.inr ⟨hq, hc, t, ht, hst⟩)

/-- C8 witness: a concrete safe trace (create one sales task, process it)
observed at task 0, which ends Completed in the completed list. -/
theorem claim_C8_witness :
    SafeOps opsOneSales ∧ 0 < (run wCanned opsOneSales).1.tasks.length ∧
    (((0 ∈ (run wCanned opsOneSales).1.task_queue ∧
        0 ∉ (run wCanned opsOneSales).1.completed_tasks ∧
        ∃ t, (run wCanned opsOneSales).1.tasks[0]? = some t ∧
          t.status = AgentStatus.idle) ∨
      (0 ∉ (run wCanned opsOneSales).1.task_queue ∧
        0 ∈ (run wCanned opsOneSales).1.completed_tasks ∧
        ∃ t, (run wCanned opsOneSales).1.tasks[0]? = some t ∧
          t.status = AgentStatus.completed) ∨
      (0 ∉ (run wCanned opsOneSales).1.task_queue ∧
        0 ∉ (run wCanned opsOneSales).1.completed_tasks ∧
        ∃ t, (run wCanned opsOneSales).1.tasks[0]? = some t ∧
          t.status = AgentStatus.error)) ∧
     (run wCanned opsOneSales).1.task_queue.Nodup ∧
     (run wCanned opsOneSales).1.completed_tasks.Nodup) :=
  ⟨by decide, by decide,
   claim_C8 wCanned opsOneSales (by decide) 0 (by decide)⟩

/-- C9 (amended): under the dispatcher's own driving, each task's timestamp
field is written at most once, and only at the transition into Completed: a
Completed task carries exactly the written timestamp, while a task in any
other status — including the terminal Failed — has no timestamp write and a
`none` timestamp.  "Both Completed and Failed" fails: Failed tasks get no
timestamp. -/
theorem claim_C9 (w : World) (ops : List Op) (hsafe : SafeOps ops) (r : Nat) :
    (tstampWrites r (run w ops).2).length ≤ 1 ∧
    ∀ t, (run w ops).1.tasks[r]? = some t →
      (t.status = AgentStatus.completed →
        ∃ v, tstampWrites r (run w ops).2 = [v] ∧ t.timestamp = some v) ∧
      (t.status ≠ AgentStatus.completed →
        tstampWrites r (run w ops).2 = [] ∧ t.timestamp = none) := by
  have h := reach_run w ops hsafe
  rcases Nat.lt_or_ge r (run w ops).1.tasks.length with hr | hr
  · by_cases hq : r ∈ (run w ops).1.task_queue
    · obtain ⟨t, ht, hst, -, -, hts, -, htw⟩ := h.fresh r hq
      constructor
      · rw [htw]; exact Nat.zero_le 1
      · intro u hu
        rw [ht, Option.some.injEq] at hu
        subst hu
        refine ⟨?_, fun _ => ⟨htw, hts⟩⟩
        intro hc
        rw [hst] at hc
        exact absurd hc (by decide)
    · obtain ⟨t, ht, hcase⟩ := h.proc r hr hq
      rcases hcase with ⟨-, hst, -, v, htwv, htsv⟩ | ⟨-, hst, -, htw, hts⟩
      · constructor
        · rw [htwv]; exact le_refl 1
        · intro u hu
          rw [ht, Option.some.injEq] at hu
          subst hu
          exact ⟨fun _ => ⟨v, htwv, htsv⟩, fun hc => absurd hst hc⟩
      · constructor
        · rw [htw]; exact Nat.zero_le 1
        · intro u hu
          rw [ht, Option.some.injEq] at hu
          subst hu
          refine ⟨?_, fun _ => ⟨htw, hts⟩⟩
          intro hc
          rw [hst] at hc
          exact absurd hc (by decide)
  · have hfar := h.far r hr
    constructor
    · rw [hfar.2]; exact Nat.zero_le 1
    · intro u hu
      rw [List.getElem?_eq_none hr] at hu
      exact Option.noConfusion hu

/-- C9 witness: a concrete safe trace (create one sales task, process it)
observed at task 0, which completes and carries the written timestamp. -/
theorem claim_C9_witness :
    SafeOps opsOneSales ∧
    (run wCanned opsOneSales).1.tasks[0]? = some tSalesDone ∧
    tSalesDone.status = AgentStatus.completed ∧
    (tstampWrites 0 (run wCanned opsOneSales).2).length ≤ 1 ∧
    ∃ v, tstampWrites 0 (run wCanned opsOneSales).2 = [v] ∧
      tSalesDone.timestamp = some v :=
  ⟨by decide, by decide, by decide,
   (claim_C9 wCanned opsOneSales (by decide) 0).1,
   ((claim_C9 wCanned opsOneSales (by decide) 0).2 tSalesDone (by decide)).1
     (by decide)⟩

/-! ### Injectivity of the id format `task_NNN` on positive counters -/

lemma natDigitsAux_eq (fuel : Nat) :
    ∀ n, n ≤ fuel →
      natDigitsAux fuel n = (Nat.digits 10 n).map Nat.digitChar := by
  induction fuel with
  | zero =>
    intro n hn
    have h0 : n = 0 := Nat.le_zero.1 hn
    subst h0
    simp [natDigitsAux]
  | succ f ih =>
    intro n hn
    by_cases h0 : n = 0
    · subst h0; simp [natDigitsAux]
    · rw [natDigitsAux, if_neg h0,
        Nat.digits_def' (by norm_num : 1 < 10) (Nat.pos_of_ne_zero h0),
        List.map_cons]
      congr 1
      have hdiv : n / 10 < n := Nat.div_lt_self (Nat.pos_of_ne_zero h0)
        (by norm_num)
      exact ih (n / 10) (by omega)

lemma natDecimalData_pos (n : Nat) (hn : n ≠ 0) :
    natDecimalData n = ((Nat.digits 10 n).map Nat.digitChar).reverse := by
  rw [natDecimalData, if_neg hn, natDigitsAux_eq n n le_rfl]

lemma digitChar_injOn :
    ∀ a < 10, ∀ b < 10, Nat.digitChar a = Nat.digitChar b → a = b := by
  decide

lemma map_digitChar_injAux :
    ∀ (l1 l2 : List Nat), (∀ x ∈ l1, x < 10) → (∀ x ∈ l2, x < 10) →
      l1.map Nat.digitChar = l2.map Nat.digitChar → l1 = l2 := by
  intro l1
  induction l1 with
  | nil =>
    intro l2 _ _ h
    cases l2 with
    | nil => rfl
    | cons b bs => simp at h
  | cons a as ih =>
    intro l2 h1 h2 h
    cases l2 with
    | nil => simp at h
    | cons b bs =>
      simp only [List.map_cons, List.cons.injEq] at h
      have hab := digitChar_injOn a (h1 a (List.mem_cons_self _ _))
        b (h2 b (List.mem_cons_self _ _)) h.1
      rw [hab, ih bs (fun x hx => h1 x (List.mem_cons_of_mem _ hx))
        (fun x hx => h2 x (List.mem_cons_of_mem _ hx)) h.2]

lemma natDecimalData_inj (m n : Nat) (hm : m ≠ 0) (hn : n ≠ 0)
    (h : natDecimalData m = natDecimalData n) : m = n := by
  rw [natDecimalData_pos m hm, natDecimalData_pos n hn] at h
  have h2 := List.reverse_injective h
  have h3 := map_digitChar_injAux _ _
    (fun x hx => Nat.digits_lt_base (by norm_num) hx)
    (fun x hx => Nat.digits_lt_base (by norm_num) hx) h2
  have h4 := congrArg (Nat.ofDigits 10) h3
  rwa [Nat.ofDigits_digits, Nat.ofDigits_digits] at h4

/-- The decimal rendering of a positive number starts with a nonzero
digit. -/
lemma natDecimalData_head (n : Nat) (hn : n ≠ 0) :
    ∃ c cs, natDecimalData n = c :: cs ∧ c ≠ '0' := by
  rw [natDecimalData_pos n hn, ← List.map_reverse]
  have hne : Nat.digits 10 n ≠ [] := Nat.digits_ne_nil_iff_ne_zero.mpr hn
  have hrne : (Nat.digits 10 n).reverse ≠ [] := by simpa using hne
  obtain ⟨d, ds, hd⟩ := List.exists_cons_of_ne_nil hrne
  refine ⟨Nat.digitChar d, ds.map Nat.digitChar, by rw [hd, List.map_cons], ?_⟩
  have hdl : (Nat.digits 10 n).getLast? = some d := by
    rw [← List.head?_reverse, hd, List.head?_cons]
  have hlast := Nat.getLast_digit_ne_zero 10 hn
  rw [List.getLast?_eq_getLast _ hne, Option.some.injEq] at hdl
  have hd0 : d ≠ 0 := hdl ▸ hlast
  have hd10 : d < 10 := Nat.digits_lt_base (by norm_num)
    (List.mem_reverse.1 (hd ▸ List.mem_cons_self d ds))
  have hall : ∀ x < 10, x ≠ 0 → Nat.digitChar x ≠ '0' := by decide
  exact hall d hd10 hd0

lemma dropWhile_zeroPad (k : Nat) (c : Char) (cs : List Char) (hc : c ≠ '0') :
    List.dropWhile (fun x => x == '0')
      (List.replicate k '0' ++ c :: cs) = c :: cs := by
  induction k with
  | zero => simp [List.dropWhile_cons, hc]
  | succ m ih =>
    rw [List.replicate_succ, List.cons_append, List.dropWhile_cons]
    simpa using ih

lemma dropWhile_zeroPad_natDecimalData (n : Nat) (hn : n ≠ 0) :
    List.dropWhile (fun x => x == '0') (zeroPad 3 (natDecimalData n)) =
      natDecimalData n := by
  obtain ⟨c, cs, hceq, hc⟩ := natDecimalData_head n hn
  rw [zeroPad, hceq]
  exact dropWhile_zeroPad _ c cs hc

/-- The id format is injective on positive counters. -/
lemma formatId_inj (m n : Nat) (hm : m ≠ 0) (hn : n ≠ 0)
    (h : formatId m = formatId n) : m = n := by
  rw [formatId, formatId] at h
  have h1 : "task_".data ++ zeroPad 3 (natDecimalData m) =
      "task_".data ++ zeroPad 3 (natDecimalData n) := congrArg String.data h
  have h2 := List.append_cancel_left h1
  have h3 := congrArg (List.dropWhile fun x => x == '0') h2
  rw [dropWhile_zeroPad_natDecimalData m hm,
    dropWhile_zeroPad_natDecimalData n hn] at h3
  exact natDecimalData_inj m n hm hn h3

lemma formatId_range_nodup (n : Nat) :
    ((List.range n).map fun i => formatId (i + 1)).Nodup := by
  refine List.Nodup.map_on ?_ (List.nodup_range _)
  intro x _ y _ hf
  have := formatId_inj (x + 1) (y + 1) (by omega) (by omega) hf
  omega

/-! ### The id-counter invariant of no-failure traces -/

/-- Setting a slot to a value with the same `f`-image leaves the mapped list
unchanged. -/
lemma map_set_same {α β : Type} (f : α → β) :
    ∀ (l : List α) (n : Nat) (a b : α), l[n]? = some a → f b = f a →
      (l.set n b).map f = l.map f := by
  intro l
  induction l with
  | nil => intro n a b h _; simp at h
  | cons x xs ih =>
    intro n a b h hf
    cases n with
    | zero =>
      simp only [List.getElem?_cons_zero, Option.some.injEq] at h
      subst h
      simp [List.set, hf]
    | succ m =>
      simp only [List.getElem?_cons_succ] at h
      simp [List.set, ih m a b h hf]

/-- Invariant of no-failure traces: the ids of the creation-ordered task
store are exactly `task_001 … task_N`, the two collections' combined size
equals the number of tasks ever created, and queued tasks are fresh with
registered persona types. -/
structure IdInv (s : OrchState) : Prop where
  ids : s.tasks.map Task.id =
    (List.range s.tasks.length).map fun i => formatId (i + 1)
  count : s.task_queue.length + s.completed_tasks.length = s.tasks.length
  fresh : ∀ r ∈ s.task_queue, ∃ t, s.tasks[r]? = some t ∧
    t.status = AgentStatus.idle ∧ t.retry_count = 0 ∧ 0 < t.max_retries ∧
    t.agent_type ∈ registryKeys

lemma idinv_init : IdInv initState := by
  refine ⟨?_, ?_, ?_⟩ <;> simp [initState]

/-- `create_task` with a registered persona type preserves the invariant. -/
lemma idinv_create (s : OrchState) (d a : String) (ha : a ∈ registryKeys)
    (h : IdInv s) : IdInv (create_task s d a).1 := by
  refine ⟨?_, ?_, ?_⟩
  · simp only [create_task, List.map_append, List.length_append,
      List.length_singleton, List.map_singleton]
    rw [h.ids, List.range_succ, List.map_append, List.map_singleton]
    congr 2
    rw [← h.count]
  · have hcnt := h.count
    simp only [create_task, List.length_append, List.length_singleton]
    omega
  · intro r hr
    simp only [create_task] at hr ⊢
    rcases List.mem_append.1 hr with h1 | h1
    · obtain ⟨t, ht, hrest⟩ := h.fresh r h1
      have hlt : r < s.tasks.length := by
        obtain ⟨hl, -⟩ := List.getElem?_eq_some.1 ht
        exact hl
      refine ⟨t, ?_, hrest⟩
      rw [List.getElem?_append, if_pos hlt]
      exact ht
    · simp at h1
      subst h1
      exact ⟨_, List.getElem?_concat_length _ _, rfl, rfl, by simp, ha⟩

/-- One no-failure `process_all_tasks` iteration preserves the invariant. -/
lemma idinv_iter (w : World) (s : OrchState) (evs : List Ev) (ref : Nat)
    (rest : List Nat) (hval : ValidGen w) (hre : Reach s evs) (h : IdInv s)
    (hq : s.task_queue = ref :: rest) : IdInv (procAllNext w s ref) := by
  have hmem : ref ∈ s.task_queue := by rw [hq]; exact List.mem_cons_self _ _
  obtain ⟨t, ht, hst, hrc, hmx, hk⟩ := h.fresh ref hmem
  have hlen : ref < s.tasks.length := hre.q_lt ref hmem
  have ha := assign_task_valid w s ref t ht hk hrc hmx (hval s.calls)
  have hnext : procAllNext w s ref = (assign_task w s ref).state := by
    rw [procAllNext, ha]
    simp [List.getElem?_set_self hlen]
  rw [hnext, ha]
  have hnin : ref ∉ rest := by
    have := hre.q_nd
    rw [hq] at this
    exact (List.nodup_cons.1 this).1
  refine ⟨?_, ?_, ?_⟩
  · simp only
    rw [map_set_same Task.id s.tasks ref t
      { t with status := AgentStatus.completed,
               result := some (pyStrip (w.gen s.calls)),
               timestamp := some (w.clock (s.calls + 1)) } ht rfl,
      List.length_set]
    exact h.ids
  · have hcnt := h.count
    rw [hq] at hcnt
    simp only
    rw [List.length_set, hq, List.erase_cons_head]
    simp only [List.length_cons, List.length_append, List.length_singleton,
      List.length_nil] at hcnt ⊢
    omega
  · intro r hr
    simp only at hr ⊢
    rw [hq, List.erase_cons_head] at hr
    have hne : ref ≠ r := fun he => hnin (he ▸ hr)
    have hr2 : r ∈ s.task_queue := by
      rw [hq]
      exact List.mem_cons_of_mem _ hr
    obtain ⟨u, hu, hrest⟩ := h.fresh r hr2
    refine ⟨u, ?_, hrest⟩
    rw [List.getElem?_set_ne hne]
    exact hu

/-- Processing the whole queue of a no-failure trace preserves the
invariant. -/
lemma idinv_procAllLoop (w : World) (hval : ValidGen w) :
    ∀ (fuel : Nat) (s : OrchState) (evs : List Ev), Reach s evs → IdInv s →
      IdInv (procAllLoop w s fuel).1 := by
  intro fuel
  induction fuel with
  | zero =>
    intro s evs _ h
    rw [procAllLoop_zero]
    exact h
  | succ n ih =>
    intro s evs hre h
    cases hq : s.task_queue with
    | nil =>
      rw [procAllLoop_nil w s n hq]
      exact h
    | cons ref rest =>
      have hre2 := reach_iter w s evs ref rest hre hq
      have h2 := idinv_iter w s evs ref rest hval hre h hq
      rw [procAllLoop_cons w s n ref rest hq]
      exact ih (procAllNext w s ref) _ hre2 h2

lemma goodOps_safe (ops : List Op) (h : GoodOps ops) : SafeOps ops := by
  intro op hop
  have hg := h op hop
  cases op <;> simp [isGoodOp, isSafeOp] at hg ⊢

/-- Every no-failure trace keeps the id-counter invariant. -/
lemma idinv_runFrom (w : World) (hval : ValidGen w) :
    ∀ (ops : List Op) (start : OrchState × List Ev), GoodOps ops →
      Reach start.1 start.2 → IdInv start.1 →
      IdInv (runFrom w start ops).1 := by
  intro ops
  induction ops with
  | nil => intro start _ _ h; exact h
  | cons op rest ih =>
    intro start hgood hre h
    have hg : isGoodOp op = true := hgood op (List.mem_cons_self _ _)
    have hrest : GoodOps rest := fun o ho =>
      hgood o (List.mem_cons_of_mem _ ho)
    have hsafe : isSafeOp op = true := by
      cases op <;> simp [isGoodOp, isSafeOp] at hg ⊢
    have hre2 := reach_step w start.1 start.2 op hsafe hre
    have hrw : runFrom w start (op :: rest) =
        runFrom w ((stepOp w start.1 op).1,
          start.2 ++ (stepOp w start.1 op).2) rest := rfl
    rw [hrw]
    refine ih _ hrest hre2 ?_
    cases op with
    | create d a =>
      have ha : a ∈ registryKeys := by
        simpa [isGoodOp] using hg
      exact idinv_create start.1 d a ha h
    | assign ref => simp [isGoodOp] at hg
    | procAll fuel => exact idinv_procAllLoop w hval fuel start.1 start.2 hre h

lemma idinv_run (w : World) (ops : List Op) (hval : ValidGen w)
    (hgood : GoodOps ops) : IdInv (run w ops).1 :=
  idinv_runFrom w hval ops (initState, []) hgood reach_init idinv_init

/-- C3 (amended): when every generation result passes validation and every
created task names a registered persona type — so no task ever fails — the
ids handed out by `create_task` are exactly `task_001`, `task_002`, … in
creation order: each id embeds the 1-based creation counter (drawn from the
combined size of the two collections) zero-padded to at least 3 digits, the
embedded counters are strictly increasing, and the ids are pairwise
distinct.  Without the no-failure proviso uniqueness fails: a failed task
leaves both collections and the counter re-uses its id. -/
theorem claim_C3 (w : World) (ops : List Op) (hval : ValidGen w)
    (hgood : GoodOps ops) :
    (run w ops).1.tasks.map Task.id =
      (List.range (run w ops).1.tasks.length).map
        (fun i => formatId (i + 1)) ∧
    ((run w ops).1.tasks.map Task.id).Nodup := by
  have h := idinv_run w ops hval hgood
  refine ⟨h.ids, ?_⟩
  rw [h.ids]
  exact formatId_range_nodup _

/-- C3 witness: three tasks of registered personas under the canned world —
the three ids are `task_001`, `task_002`, `task_003`, pairwise distinct. -/
theorem claim_C3_witness :
    ValidGen wCanned ∧ GoodOps opsGood3 ∧
    ((run wCanned opsGood3).1.tasks.map Task.id =
        (List.range (run wCanned opsGood3).1.tasks.length).map
          (fun i => formatId (i + 1)) ∧
      ((run wCanned opsGood3).1.tasks.map Task.id).Nodup) :=
  ⟨fun _ => rfl, by decide,
   claim_C3 wCanned opsGood3 (fun _ => rfl) (by decide)⟩

/-- C3 counterexample: after a failed task is dropped from both collections,
the combined-size counter decreases and `create_task` hands out the same id
again — two distinct tasks of the same dispatcher carry id `task_001`. -/
theorem claim_C3_cex :
    (run wCanned opsReuse).1.tasks.length = 2 ∧
    (run wCanned opsReuse).1.tasks.map Task.id = ["task_001", "task_001"] := by
  constructor <;> decide

/-- C7 counterexample: a second `assign_task` on a task that already Failed
(and was left in the queue) writes InProgress again — the observed status
sequence for task 0 is Working, Failed, Working, so the transition
Failed→InProgress occurs, leaving a terminal state. -/
theorem claim_C7_cex :
    statusWrites 0 (run wShort opsReassign).2 =
      [AgentStatus.working, AgentStatus.error, AgentStatus.working] ∧
    ¬ allowedStep AgentStatus.error AgentStatus.working := by
  constructor <;> decide

/-- C8 counterexample: a task that fails with an unknown persona type is
removed from the pending queue by `process_all_tasks` without ever being
appended to the completed list — it ends in neither collection. -/
theorem claim_C8_cex :
    (run wCanned opsDrop).1.tasks.length = 1 ∧
    (run wCanned opsDrop).1.task_queue = [] ∧
    (run wCanned opsDrop).1.completed_tasks = [] ∧
    (run wCanned opsDrop).1.tasks.map Task.status = [AgentStatus.error] := by
  refine ⟨?_, ?_, ?_, ?_⟩ <;> decide

/-- C9 counterexample: a task that reaches the terminal Failed status never
gets a completion timestamp — the timestamp is written only on the Completed
transition. -/
theorem claim_C9_cex :
    (run wCanned opsDrop).1.tasks.map Task.status = [AgentStatus.error] ∧
    (run wCanned opsDrop).1.tasks.map Task.timestamp = [none] ∧
    tstampWrites 0 (run wCanned opsDrop).2 = [] := by
  refine ⟨?_, ?_, ?_⟩ <;> decide

/-- C10 counterexample: a generated text with leading whitespace followed by
the error marker passes `_validate_result` (the marker check runs on the raw
string), so a Completed task can store a result that does start with
`"Error:"`. -/
theorem claim_C10_cex :
    (run wSneaky opsOneSales).1.tasks.map Task.status = [AgentStatus.completed] ∧
    (run wSneaky opsOneSales).1.tasks.map Task.result =
      [some "Error: 0123456789xyz"] ∧
    pyStartsWith "Error: 0123456789xyz" "Error:" = true := by
  refine ⟨?_, ?_, ?_⟩ <;> decide

end AgentSys
